import Mathlib

/-!
# Verification of the prompt-manager hierarchy / image / validation core

A shallow embedding of the mutation and query logic in `app/routes/api.py`
(together with the relational model declared in `app/models.py`) of the
Prompt_manager repository, plus proofs about the embedded operations.

Conventions of the embedding:

* The four database tables (`domains`, `subtopics`, `prompts`,
  `prompt_images`) become lists of row structures inside a `DB` state;
  autoincrement primary keys become explicit `next…Id` counters, and
  SQLAlchemy `flush`/`commit`/`rollback` become explicit state passing
  (a rolled-back request returns the caller's original `DB`).
* Python strings are Lean `String`s; all lower-casing / stripping used by
  the code is ASCII (SQLite's `lower()` is ASCII-only, and every Python
  `.lower()`/`.strip()` in the modelled paths is applied to the same data),
  so the helpers below work on ASCII via `Char.toLower` / `Char.isWhitespace`.
* Library functions from outside the repository (werkzeug's
  `secure_filename`, `pathlib`'s `Path(...).suffix`, `json.loads`, SQL
  `LIKE`, `uuid4().hex`) are modelled explicitly where their behaviour is
  documented and relevant (`secure_filename` for ASCII input, `suffix`,
  `LIKE`), or abstracted as function parameters where only their interface
  matters (`json.loads` becomes a `String → Option Json` parameter,
  `uuid4().hex` becomes a `Nat → String` token generator).
-/

/-! ## ASCII string helpers (models of `str.lower`, `str.strip`, SQL `lower`) -/

/-- ASCII lower-casing, modelling Python `str.lower()` and SQLite `lower()`
on the ASCII strings the code handles. -/
def pyLower (s : String) : String := ⟨s.data.map Char.toLower⟩

/-- Whitespace stripping at both ends, modelling Python `str.strip()`. -/
def pyStrip (s : String) : String :=
  ⟨((s.data.dropWhile Char.isWhitespace).reverse.dropWhile Char.isWhitespace).reverse⟩

/-- Strip leading `'.'` characters, modelling Python `str.lstrip('.')`. -/
def lstripDots (s : String) : String := ⟨s.data.dropWhile (fun c => c == '.')⟩

/-! ## Model of `pathlib.Path(...).suffix` -/

/-- Split a character list on a separator character, keeping empty segments
(model of Python `str.split(sep)`). -/
def splitOnChar (sep : Char) : List Char → List (List Char)
  | [] => [[]]
  | c :: cs =>
    let r := splitOnChar sep cs
    if c == sep then [] :: r
    else
      match r with
      | [] => [[c]]
      | h :: t => (c :: h) :: t

/-- Model of `pathlib.Path(s).suffix`: take the final path component (the
last non-empty `/`-separated segment), find its right-most `'.'`, and return
the extension from that dot on, unless the dot is the first or the last
character of the component. -/
def pathSuffix (s : String) : String :=
  let name := ((splitOnChar '/' s.data).filter (fun seg => !seg.isEmpty)).getLastD []
  match name.reverse.findIdx? (fun c => c == '.') with
  | none => ""
  | some j =>
    let i := name.length - 1 - j
    if 0 < i ∧ i < name.length - 1 then ⟨name.drop i⟩ else ""

/-! ## Model of `werkzeug.utils.secure_filename` (ASCII behaviour)

`secure_filename` normalises to ASCII (dropping other characters), replaces
the path separator by a space, splits on whitespace and joins with `'_'`,
removes every character outside `[A-Za-z0-9_.-]`, and strips `'.'`/`'_'`
from both ends. -/

/-- Characters kept by `secure_filename`'s `[^A-Za-z0-9_.-]` strip. -/
def isSecureChar (c : Char) : Bool :=
  c.isAlphanum || c == '_' || c == '.' || c == '-'

/-- Split a character list on runs of whitespace, discarding empty pieces
(model of Python `str.split()` with no argument). -/
def splitWsAux (acc : List Char) : List Char → List (List Char)
  | [] => if acc.isEmpty then [] else [acc.reverse]
  | c :: cs =>
    if c.isWhitespace then
      if acc.isEmpty then splitWsAux [] cs else acc.reverse :: splitWsAux [] cs
    else splitWsAux (c :: acc) cs

def splitWs (cs : List Char) : List (List Char) := splitWsAux [] cs

/-- Strip `'.'` and `'_'` from both ends (model of `str.strip("._")`). -/
def stripDotUnderscore (cs : List Char) : List Char :=
  let p := fun c => c == '.' || c == '_'
  ((cs.dropWhile p).reverse.dropWhile p).reverse

/-- Model of `werkzeug.utils.secure_filename` for ASCII input. -/
def secureFilename (s : String) : String :=
  let ascii := s.data.filter (fun c => c.toNat < 128)
  let replaced := ascii.map (fun c => if c == '/' then ' ' else c)
  let joined := List.intercalate ['_'] (splitWs replaced)
  ⟨stripDotUnderscore (joined.filter isSecureChar)⟩

/-! ## JSON values and Python payload values -/

/-- A JSON value, as produced by `json.loads`. The mutation code only ever
asks whether the parsed value is an object (`dict`). -/
inductive Json where
  | null : Json
  | jbool : Bool → Json
  | jnum : Int → Json
  | jstr : String → Json
  | jarr : List Json → Json
  | jobj : List (String × Json) → Json

/-- A Python value that can appear as a field of a request payload
(from a JSON body or a flat form dict): `None`, a boolean, a string, a
dict (JSON object), or any other Python value. -/
inductive PyVal where
  | pynone : PyVal
  | pybool : Bool → PyVal
  | pystr : String → PyVal
  | pydict : List (String × Json) → PyVal
  | pyother : PyVal

/-! ## Request payloads and `_validate_prompt_payload` -/

/-- The fields of a create/update request payload that
`_validate_prompt_payload` reads.  `none` models an absent key.  The four
text fields are typed as strings (the request contract of §6 of the spec);
`is_template` and `configurable_options` keep the full Python value because
the code dispatches on its runtime type. -/
structure Payload where
  title : Option String
  content : Option String
  domain_name : Option String
  subtopic_name : Option String
  is_template : Option PyVal
  configurable_options : Option PyVal

/-- The payload with every key absent (model of the empty dict `{}`). -/
def emptyPayload : Payload := ⟨none, none, none, none, none, none⟩

/-- Model of `(payload.get(k) or '').strip()` for a text field. -/
def strField (v : Option String) : String := pyStrip (v.getD "")

/-- Translation of `_normalize_bool`: a `bool` is returned as-is; a string
is stripped, lower-cased and matched against the two accepted truthy /
falsy sets; everything else yields `None`. -/
def normalizeBool : PyVal → Option Bool
  | .pybool b => some b
  | .pystr s =>
    let lowered := pyLower (pyStrip s)
    if ["true", "1", "yes", "on"].contains lowered then some true
    else if ["false", "0", "no", "off"].contains lowered then some false
    else none
  | _ => none

/-- Translation of `_parse_configurable_options`.  `jsonLoads` abstracts
`json.loads` (`none` models a raised `ValueError`).  Returns
`(value, error)` exactly as the Python function does. -/
def parseConfigurableOptions (jsonLoads : String → Option Json) :
    PyVal → Option (List (String × Json)) × Option String
  | .pynone => (none, none)
  | .pydict kvs => (some kvs, none)
  | .pystr s =>
    if s = "" then (none, none)
    else
      match jsonLoads s with
      | none => (none, some "configurable_options must be valid JSON.")
      | some (.jobj kvs) => (some kvs, none)
      | some _ => (none, some "configurable_options must be a JSON object.")
  | _ => (none, some "configurable_options must be a JSON object.")

/-- The normalized fields returned by `_validate_prompt_payload`. -/
structure Fields where
  title : String
  content : String
  domain_name : String
  subtopic_name : String
  is_template : Bool
  configurable_options : Option (List (String × Json))

/-- Translation of `_validate_prompt_payload`: normalizes the payload and
returns the field-keyed error map (as an association list in insertion
order) together with the normalized fields. -/
def validatePromptPayload (jsonLoads : String → Option Json) (payload : Payload) :
    List (String × String) × Fields :=
  let title := strField payload.title
  let content := strField payload.content
  let domainName := strField payload.domain_name
  let subtopicName := strField payload.subtopic_name
  let normalizedBool := normalizeBool (payload.is_template.getD (.pybool false))
  let isTemplate := normalizedBool.getD false
  let parsed := parseConfigurableOptions jsonLoads (payload.configurable_options.getD .pynone)
  let errors :=
    (if title = "" then [("title", "Title is required.")] else []) ++
    (if content = "" then [("content", "Content is required.")] else []) ++
    (if domainName = "" then [("domain_name", "Domain name is required.")] else []) ++
    (if subtopicName = "" then [("subtopic_name", "Subtopic name is required.")] else []) ++
    (if normalizedBool = none then [("is_template", "is_template must be a boolean.")] else []) ++
    (match parsed.2 with
     | some msg => [("configurable_options", msg)]
     | none => [])
  (errors, ⟨title, content, domainName, subtopicName, isTemplate, parsed.1⟩)

/-! ## Uploaded files, `_collect_payload_and_files`, `_is_allowed_image` -/

/-- A werkzeug `FileStorage` as the attach code sees it: the client-declared
filename (`""` models both an empty filename and `None`) and the declared
mimetype. -/
structure FileStorage where
  filename : String
  mimetype : String
  deriving DecidableEq

/-- A request body: either JSON (`none` models an unparseable body, turned
into `{}` by `get_json(silent=True) or {}`) or a form with its flat field
dict and its multi-map of uploaded files. -/
inductive ApiRequest where
  | jsonReq : Option Payload → ApiRequest
  | formReq : Payload → List (String × FileStorage) → ApiRequest

/-- Model of `request.files.getlist(k)`: every file uploaded under field name `k`,
in order. -/
def getlist (k : String) (files : List (String × FileStorage)) : List FileStorage :=
  (files.filter (fun kv => kv.1 == k)).map (fun kv => kv.2)

/-- Translation of `_collect_payload_and_files`: a JSON request contributes
no files; a form request contributes the files of the `images` and
`images[]` fields, dropping falsy entries (a `FileStorage` is falsy exactly
when its filename is empty). -/
def collectPayloadAndFiles : ApiRequest → Payload × List FileStorage
  | .jsonReq body => (body.getD emptyPayload, [])
  | .formReq payload files =>
    let fs := getlist "images" files ++ getlist "images[]" files
    (payload, fs.filter (fun f => f.filename ≠ ""))

/-- The `ALLOWED_IMAGE_EXTENSIONS` constant. -/
def ALLOWED_IMAGE_EXTENSIONS : List String := ["png", "jpg", "jpeg", "gif", "webp"]

/-- The `MAX_IMAGES_PER_PROMPT` constant. -/
def MAX_IMAGES_PER_PROMPT : Nat := 8

/-- Translation of `_is_allowed_image`: sanitize the filename, take its
lower-cased extension without the leading dot, and require a non-empty
sanitized name, an allowed extension, and a declared mimetype starting
with `image/`. -/
def isAllowedImage (f : FileStorage) : Bool :=
  let filename := secureFilename f.filename
  let extension := lstripDots (pyLower (pathSuffix filename))
  if filename == "" || !(ALLOWED_IMAGE_EXTENSIONS.contains extension) then false
  else "image/".data.isPrefixOf (pyLower f.mimetype).data

/-! ## The relational state (`app/models.py`) -/

/-- A row of the `domains` table. -/
structure DomainRow where
  id : Nat
  name : String
  deriving DecidableEq

/-- A row of the `subtopics` table. -/
structure SubtopicRow where
  id : Nat
  name : String
  domain_id : Nat
  deriving DecidableEq

/-- A row of the `prompts` table. -/
structure PromptRow where
  id : Nat
  title : String
  content : String
  is_template : Bool
  configurable_options : Option (List (String × Json))
  subtopic_id : Nat

/-- A row of the `prompt_images` table. -/
structure ImageRow where
  id : Nat
  prompt_id : Nat
  filename : String
  sort_order : Nat
  deriving DecidableEq

/-- The database state: the four tables in insertion order, plus the
autoincrement counters for their primary keys. -/
structure DB where
  domains : List DomainRow
  subtopics : List SubtopicRow
  prompts : List PromptRow
  images : List ImageRow
  nextDomainId : Nat
  nextSubtopicId : Nat
  nextPromptId : Nat
  nextImageId : Nat

/-- Well-formedness of a database state: primary keys are unique and below
their autoincrement counter, and foreign keys reference existing rows
(which the ORM layer guarantees for committed states). -/
def DB.WF (db : DB) : Prop :=
  (db.domains.map (fun d => d.id)).Nodup ∧
  (db.subtopics.map (fun s => s.id)).Nodup ∧
  (db.prompts.map (fun p => p.id)).Nodup ∧
  (∀ d ∈ db.domains, d.id < db.nextDomainId) ∧
  (∀ s ∈ db.subtopics, s.id < db.nextSubtopicId) ∧
  (∀ p ∈ db.prompts, p.id < db.nextPromptId) ∧
  (∀ s ∈ db.subtopics, ∃ d ∈ db.domains, d.id = s.domain_id) ∧
  (∀ p ∈ db.prompts, ∃ s ∈ db.subtopics, s.id = p.subtopic_id) ∧
  (∀ i ∈ db.images, ∃ p ∈ db.prompts, p.id = i.prompt_id)

instance (db : DB) : Decidable db.WF := by
  unfold DB.WF
  infer_instance

/-! ## `_get_or_create_domain_and_subtopic` -/

/-- The second half of `_get_or_create_domain_and_subtopic`: look up, in
domain `did`, a subtopic whose name matches case-insensitively (first match
in table order), creating one bound to `did` when absent. -/
def getOrCreateSubtopic (db : DB) (did : Nat) (subtopicName : String) : DB × Nat × Nat :=
  match db.subtopics.find?
      (fun s => s.domain_id == did && pyLower s.name == pyLower subtopicName) with
  | some s => (db, did, s.id)
  | none =>
    ({ db with
        subtopics := db.subtopics ++ [⟨db.nextSubtopicId, subtopicName, did⟩],
        nextSubtopicId := db.nextSubtopicId + 1 }, did, db.nextSubtopicId)

/-- Translation of `_get_or_create_domain_and_subtopic`: look up the domain
case-insensitively (`lower(domains.name) = lower(domain_name)`, first match
in table order), creating (and flushing) it when absent; then run the
subtopic lookup of `getOrCreateSubtopic` against the resulting state.
Returns the new state together with the resolved domain id and subtopic
id. -/
def getOrCreateDomainAndSubtopic (db : DB) (domainName subtopicName : String) :
    DB × Nat × Nat :=
  match db.domains.find? (fun d => pyLower d.name == pyLower domainName) with
  | some d => getOrCreateSubtopic db d.id subtopicName
  | none =>
    getOrCreateSubtopic
      { db with
          domains := db.domains ++ [⟨db.nextDomainId, domainName⟩],
          nextDomainId := db.nextDomainId + 1 }
      db.nextDomainId subtopicName

/-! ## `_attach_images` -/

/-- The two rejection conditions of `_attach_images`. -/
inductive AttachError where
  | limit : AttachError
  | invalidType : AttachError
  deriving DecidableEq

/-- The error message placed under the `images` key for each rejection. -/
def attachErrorMessage : AttachError → String
  | .limit => "You can attach up to 8 images per prompt."
  | .invalidType => "Only image files (png, jpg, jpeg, gif, webp) are allowed."

/-- A `PromptImage` as built inside `_attach_images`, before the database
assigns its id. -/
structure NewImage where
  filename : String
  sort_order : Nat
  deriving DecidableEq

/-- The extension appended to the generated name for one file:
the sanitized name's suffix, or — when that is empty — the raw
filename's suffix (Python `original_ext or fallback_ext`). -/
def attachExtension (f : FileStorage) : String :=
  let originalExt := pathSuffix (secureFilename f.filename)
  if originalExt ≠ "" then originalExt else pathSuffix f.filename

/-- The loop body of `_attach_images`: for the batch files in order, build
a `PromptImage` whose filename is the generated token (`uuid4().hex`,
abstracted as `gen`) plus the extension, and whose `sort_order` is
`existingCount + index`. -/
def attachRowsFrom (gen : Nat → String) (existingCount : Nat) :
    Nat → List FileStorage → List NewImage
  | _, [] => []
  | i, f :: fs =>
    ⟨gen i ++ attachExtension f, existingCount + i⟩ :: attachRowsFrom gen existingCount (i + 1) fs

/-- Translation of `_attach_images`'s validation and row construction.
All validation happens before any file is written, so a rejected batch
writes no file and adds no row; on success exactly the returned rows are
appended, and a file is written for each (named by the row's filename). -/
def attachImages (existingCount : Nat) (gen : Nat → String) (files : List FileStorage) :
    Except AttachError (List NewImage) :=
  let cleaned := files.filter (fun f => f.filename ≠ "")
  if cleaned.isEmpty then .ok []
  else if MAX_IMAGES_PER_PROMPT < existingCount + cleaned.length then .error .limit
  else if !(cleaned.filter (fun f => !(isAllowedImage f))).isEmpty then .error .invalidType
  else .ok (attachRowsFrom gen existingCount 0 cleaned)

/-- Turn the freshly built `PromptImage`s of one batch into table rows for
prompt `pid`, assigning ids from the autoincrement counter. -/
def addImageRows (nextImageId pid : Nat) : List NewImage → List ImageRow
  | [] => []
  | r :: rs => ⟨nextImageId, pid, r.filename, r.sort_order⟩ :: addImageRows (nextImageId + 1) pid rs

/-! ## The mutation endpoints -/

/-- The observable outcome of a create/update request: a 400 from field
validation, a 400 from image validation (the whole transaction rolled
back, so the state reverts to the caller's `db`), a 404, or a committed
success carrying the new state, the prompt id, and the filenames written
to the upload directory by this request. -/
inductive MutationResult where
  | validationError : DB → List (String × String) → MutationResult
  | imageError : DB → List (String × String) → AttachError → MutationResult
  | notFound : DB → MutationResult
  | success : DB → Nat → List String → MutationResult

/-- Translation of `create_prompt` (after `_collect_payload_and_files`):
validate, resolve the hierarchy, insert the prompt, attach images (a new
prompt has no images, so the existing count is 0), and commit — or roll
everything back on an image error. -/
def createPrompt (jsonLoads : String → Option Json) (gen : Nat → String)
    (db : DB) (payload : Payload) (files : List FileStorage) : MutationResult :=
  let v := validatePromptPayload jsonLoads payload
  if v.1 ≠ [] then .validationError db v.1
  else
    let r := getOrCreateDomainAndSubtopic db v.2.domain_name v.2.subtopic_name
    let db1 := r.1
    let pid := db1.nextPromptId
    let newPrompt : PromptRow :=
      ⟨pid, v.2.title, v.2.content, v.2.is_template, v.2.configurable_options, r.2.2⟩
    let db2 := { db1 with prompts := db1.prompts ++ [newPrompt], nextPromptId := pid + 1 }
    match attachImages 0 gen files with
    | .error e => .imageError db (v.1 ++ [("images", attachErrorMessage e)]) e
    | .ok rows =>
      .success
        { db2 with
            images := db2.images ++ addImageRows db2.nextImageId pid rows,
            nextImageId := db2.nextImageId + rows.length }
        pid (rows.map (fun r => r.filename))

/-- Translation of `update_prompt`: 404 when the id is unknown; otherwise
validate, resolve the hierarchy, overwrite the prompt's fields (re-parenting
it to the resolved subtopic), attach any uploaded images against the
prompt's current image count, and commit — or roll everything back on an
image error. -/
def updatePrompt (jsonLoads : String → Option Json) (gen : Nat → String)
    (db : DB) (promptId : Nat) (payload : Payload) (files : List FileStorage) :
    MutationResult :=
  match db.prompts.find? (fun p => p.id == promptId) with
  | none => .notFound db
  | some prompt =>
    let v := validatePromptPayload jsonLoads payload
    if v.1 ≠ [] then .validationError db v.1
    else
      let r := getOrCreateDomainAndSubtopic db v.2.domain_name v.2.subtopic_name
      let db1 := r.1
      let updated : PromptRow :=
        ⟨prompt.id, v.2.title, v.2.content, v.2.is_template, v.2.configurable_options, r.2.2⟩
      let db2 := { db1 with
        prompts := db1.prompts.map (fun (p : PromptRow) => if p.id == promptId then updated else p) }
      let existingCount := (db.images.filter (fun i => i.prompt_id == promptId)).length
      match attachImages existingCount gen files with
      | .error e => .imageError db (v.1 ++ [("images", attachErrorMessage e)]) e
      | .ok rows =>
        .success
          { db2 with
              images := db2.images ++ addImageRows db2.nextImageId promptId rows,
              nextImageId := db2.nextImageId + rows.length }
          promptId (rows.map (fun r => r.filename))

/-- Endpoint `create_prompt` as reached from an HTTP request, including
`_collect_payload_and_files`. -/
def createPromptRequest (jsonLoads : String → Option Json) (gen : Nat → String)
    (db : DB) (req : ApiRequest) : MutationResult :=
  let c := collectPayloadAndFiles req
  createPrompt jsonLoads gen db c.1 c.2

/-- Endpoint `update_prompt` as reached from an HTTP request, including
`_collect_payload_and_files`. -/
def updatePromptRequest (jsonLoads : String → Option Json) (gen : Nat → String)
    (db : DB) (promptId : Nat) (req : ApiRequest) : MutationResult :=
  let c := collectPayloadAndFiles req
  updatePrompt jsonLoads gen db promptId c.1 c.2

/-! ## `delete_prompt` and the cascade pruner -/

/-- Model of `db.session.delete(subtopic)` with the `all, delete-orphan` cascade of
`models.py`: the subtopic row goes away together with its prompts and
their image rows. -/
def deleteSubtopicCascade (db : DB) (sid : Nat) : DB :=
  let deadPrompts := (db.prompts.filter (fun p => p.subtopic_id == sid)).map (fun p => p.id)
  { db with
      subtopics := db.subtopics.filter (fun t => !(t.id == sid)),
      prompts := db.prompts.filter (fun p => !(p.subtopic_id == sid)),
      images := db.images.filter (fun i => !(deadPrompts.contains i.prompt_id)) }

/-- Model of `db.session.delete(domain)` with its cascade: the domain row goes away
together with its subtopics, their prompts and their image rows. -/
def deleteDomainCascade (db : DB) (did : Nat) : DB :=
  let deadSubs := (db.subtopics.filter (fun s => s.domain_id == did)).map (fun s => s.id)
  let deadPrompts :=
    (db.prompts.filter (fun p => deadSubs.contains p.subtopic_id)).map (fun p => p.id)
  { db with
      domains := db.domains.filter (fun d => !(d.id == did)),
      subtopics := db.subtopics.filter (fun s => !(s.domain_id == did)),
      prompts := db.prompts.filter (fun p => !(deadSubs.contains p.subtopic_id)),
      images := db.images.filter (fun i => !(deadPrompts.contains i.prompt_id)) }

/-- Translation of `delete_prompt`: `none` models the 404 branch.  The
prompt row is deleted (its image rows cascade, and their files are removed
from disk); after a flush, the parent subtopic is deleted when it has no
remaining prompts, and — only inside that branch, after a second flush —
the parent domain is deleted when it has no remaining subtopics. -/
def deletePrompt (db : DB) (promptId : Nat) : Option DB :=
  match db.prompts.find? (fun p => p.id == promptId) with
  | none => none
  | some prompt =>
    let subtopicQ := db.subtopics.find? (fun s => s.id == prompt.subtopic_id)
    let db1 := { db with
        prompts := db.prompts.filter (fun p => !(p.id == promptId)),
        images := db.images.filter (fun i => !(i.prompt_id == promptId)) }
    match subtopicQ with
    | none => some db1
    | some s =>
      if (db1.prompts.filter (fun p => p.subtopic_id == s.id)).isEmpty then
        let db2 := deleteSubtopicCascade db1 s.id
        match db.domains.find? (fun d => d.id == s.domain_id) with
        | none => some db2
        | some d =>
          if (db2.subtopics.filter (fun t => t.domain_id == d.id)).isEmpty then
            some (deleteDomainCascade db2 d.id)
          else some db2
      else some db1

/-- The pruning invariant of §3 of the spec: no domain without a subtopic,
no subtopic without a prompt. -/
def NoEmpty (db : DB) : Prop :=
  (∀ s ∈ db.subtopics, ∃ p ∈ db.prompts, p.subtopic_id = s.id) ∧
  (∀ d ∈ db.domains, ∃ s ∈ db.subtopics, s.domain_id = d.id)

instance (db : DB) : Decidable (NoEmpty db) := by
  unfold NoEmpty
  infer_instance

/-! ## `search_prompts` and SQL `LIKE`

The query filters with ``lower(title) LIKE '%' || lower(q) || '%'`` (and the
same for content).  `likeAux` is a model of the SQL `LIKE` operator: `'%'`
matches any sequence of characters, `'_'` matches exactly one, and no escape
character is configured.  The `fuel` argument only forces structural
termination; `pattern.length + s.length + 1` steps always suffice because
every step shortens the pattern or the string. -/

def likeAux : Nat → List Char → List Char → Bool
  | 0, _, _ => false
  | _ + 1, [], s => s.isEmpty
  | fuel + 1, p :: ps, s =>
    if p = '%' then
      likeAux fuel ps s ||
        (match s with
         | [] => false
         | _ :: s' => likeAux fuel (p :: ps) s')
    else
      match s with
      | [] => false
      | c :: s' => (p = '_' || p = c) && likeAux fuel ps s'

/-- SQL `LIKE pattern` applied to a string, with sufficient fuel. -/
def likeMatch (pattern s : List Char) : Bool :=
  likeAux (pattern.length + s.length + 1) pattern s

/-- Insert a prompt into a list sorted by title (ascending), modelling what
`ORDER BY prompts.title ASC` guarantees about the result order. -/
def insertByTitle (p : PromptRow) : List PromptRow → List PromptRow
  | [] => [p]
  | q :: qs => if p.title ≤ q.title then p :: q :: qs else q :: insertByTitle p qs

/-- Sort prompts by title (ascending), modelling `ORDER BY prompts.title`. -/
def sortByTitle : List PromptRow → List PromptRow
  | [] => []
  | p :: ps => insertByTitle p (sortByTitle ps)

/-- Translation of `search_prompts`: a missing `q` reads as `''`; a blank
trimmed query returns the empty list; otherwise the prompts whose
lower-cased title or content matches the `LIKE` pattern
`'%' + q.lower() + '%'` are returned, ordered by title. -/
def searchPrompts (db : DB) (q : Option String) : List PromptRow :=
  let keyword := pyStrip (q.getD "")
  if keyword = "" then []
  else
    let pat := '%' :: ((pyLower keyword).data ++ ['%'])
    sortByTitle (db.prompts.filter
      (fun p => likeMatch pat (pyLower p.title).data || likeMatch pat (pyLower p.content).data))

/-- The spec's description of search ("title or content contains `q` as a
case-insensitive substring, ordered by title; empty/blank `q` yields the
empty list"), stated with literal substring containment, to be compared
with the implementation's `LIKE`-based `searchPrompts`. -/
def searchSpecSubstring (db : DB) (q : Option String) : List PromptRow :=
  let keyword := pyStrip (q.getD "")
  if keyword = "" then []
  else
    let needle := (pyLower keyword).data
    sortByTitle (db.prompts.filter
      (fun p =>
        decide (needle <:+: (pyLower p.title).data) ||
          decide (needle <:+: (pyLower p.content).data)))

/-! ## Concrete instances used by the witnesses -/

/-- A concrete stand-in for `json.loads` used to instantiate theorems that
are universally quantified over the parser. -/
def jsonLoadsStub : String → Option Json := fun s =>
  if s = "obj" then some (.jobj [("k", .jstr "v")])
  else if s = "arr" then some (.jarr [])
  else none

/-- A concrete stand-in for the `uuid4().hex` token generator. -/
def genStub : Nat → String := fun _ => "0123456789abcdef"

/-- A payload with all required fields present and valid. -/
def okPayload : Payload :=
  ⟨some "Focus Finder", some "Build a focus plan for the day.",
    some "Research", some "Planning", none, none⟩

/-! ## C10: `configurable_options` parsing and validation -/

/-- Claim C10. `configurable_options` given as `None` or the empty string is
accepted and stored as null; given as a string it is parsed as JSON and
accepted exactly when it parses to a JSON object (a parse failure or a
non-object parse yields the corresponding field error); given as a dict it
is accepted unchanged; any other type is rejected with a field error.  A
parse error surfaces as a `configurable_options` entry of the 400 error
map of `create_prompt`. -/
theorem configurable_options_validation :
    (∀ jsonLoads, parseConfigurableOptions jsonLoads .pynone = (none, none)) ∧
    (∀ jsonLoads, parseConfigurableOptions jsonLoads (.pystr "") = (none, none)) ∧
    (∀ jsonLoads kvs, parseConfigurableOptions jsonLoads (.pydict kvs) = (some kvs, none)) ∧
    (∀ jsonLoads s, s ≠ "" → jsonLoads s = none →
      parseConfigurableOptions jsonLoads (.pystr s) =
        (none, some "configurable_options must be valid JSON.")) ∧
    (∀ jsonLoads s kvs, s ≠ "" → jsonLoads s = some (.jobj kvs) →
      parseConfigurableOptions jsonLoads (.pystr s) = (some kvs, none)) ∧
    (∀ jsonLoads s v, s ≠ "" → jsonLoads s = some v → (∀ kvs, v ≠ .jobj kvs) →
      parseConfigurableOptions jsonLoads (.pystr s) =
        (none, some "configurable_options must be a JSON object.")) ∧
    (∀ jsonLoads b, parseConfigurableOptions jsonLoads (.pybool b) =
        (none, some "configurable_options must be a JSON object.")) ∧
    (∀ jsonLoads, parseConfigurableOptions jsonLoads .pyother =
        (none, some "configurable_options must be a JSON object.")) ∧
    (∀ jsonLoads payload v msg, payload.configurable_options = some v →
      (parseConfigurableOptions jsonLoads v).2 = some msg →
      ("configurable_options", msg) ∈ (validatePromptPayload jsonLoads payload).1) ∧
    (∀ jsonLoads payload v, payload.configurable_options = some v →
      (parseConfigurableOptions jsonLoads v).2 = none →
      (∀ msg, ("configurable_options", msg) ∉ (validatePromptPayload jsonLoads payload).1) ∧
      (validatePromptPayload jsonLoads payload).2.configurable_options =
        (parseConfigurableOptions jsonLoads v).1) ∧
    (∀ jsonLoads gen db payload files v msg, payload.configurable_options = some v →
      (parseConfigurableOptions jsonLoads v).2 = some msg →
      ∃ errs, createPrompt jsonLoads gen db payload files = .validationError db errs ∧
        ("configurable_options", msg) ∈ errs) := by
  refine ⟨fun _ => rfl, fun _ => rfl, fun _ _ => rfl, ?_, ?_, ?_, fun _ _ => rfl, fun _ => rfl,
    ?_, ?_, ?_⟩
  · intro jl s hs hnone
    simp [parseConfigurableOptions, hs, hnone]
  · intro jl s kvs hs hobj
    simp [parseConfigurableOptions, hs, hobj]
  · intro jl s v hs hv hne
    cases v with
    | jobj kvs => exact absurd rfl (hne kvs)
    | null => simp [parseConfigurableOptions, hs, hv]
    | jbool b => simp [parseConfigurableOptions, hs, hv]
    | jnum n => simp [parseConfigurableOptions, hs, hv]
    | jstr t => simp [parseConfigurableOptions, hs, hv]
    | jarr xs => simp [parseConfigurableOptions, hs, hv]
  · intro jl payload v msg hv hmsg
    simp only [validatePromptPayload, hv, Option.getD_some, hmsg, List.mem_append]
    right
    simp
  · intro jl payload v hv hnone
    constructor
    · intro msg
      simp only [validatePromptPayload, hv, Option.getD_some, hnone, List.mem_append,
        List.append_nil]
      intro hmem
      rcases hmem with ((((h | h) | h) | h) | h) <;>
        · split at h <;> simp_all
    · simp [validatePromptPayload, hv]
  · intro jl gen db payload files v msg hv hmsg
    have hmem : ("configurable_options", msg) ∈ (validatePromptPayload jl payload).1 := by
      simp only [validatePromptPayload, hv, Option.getD_some, hmsg, List.mem_append]
      right
      simp
    have hne : (validatePromptPayload jl payload).1 ≠ [] := by
      intro h
      rw [h] at hmem
      exact List.not_mem_nil _ hmem
    refine ⟨(validatePromptPayload jl payload).1, ?_, hmem⟩
    simp only [createPrompt, if_pos hne]

/-- Witness for C10 at concrete inputs: a payload whose
`configurable_options` is the string `"arr"` (which `jsonLoadsStub` parses
to a JSON array) is rejected with the object error by `create_prompt`. -/
theorem configurable_options_validation_witness :
    ∃ errs,
      createPrompt jsonLoadsStub genStub ⟨[], [], [], [], 1, 1, 1, 1⟩
          ⟨some "t", some "c", some "d", some "s", none, some (.pystr "arr")⟩ [] =
        .validationError
          ⟨[], [], [], [], 1, 1, 1, 1⟩ errs ∧
      ("configurable_options", "configurable_options must be a JSON object.") ∈ errs := by
  have h := configurable_options_validation
  exact h.2.2.2.2.2.2.2.2.2.2 jsonLoadsStub genStub ⟨[], [], [], [], 1, 1, 1, 1⟩
    ⟨some "t", some "c", some "d", some "s", none, some (.pystr "arr")⟩ []
    (.pystr "arr") "configurable_options must be a JSON object." rfl (by decide)

/-! ## C9: `is_template` normalization -/

/-- Claim C9. When `is_template` is absent, validation succeeds with no
`is_template` error and a created prompt is stored with
`is_template = false`; a string value is accepted as true exactly for
(case-insensitively, after stripping) `true`/`1`/`yes`/`on`, as false
exactly for `false`/`0`/`no`/`off`, and any other string yields a 400
with an `is_template` field error. -/
theorem is_template_validation :
    (∀ jsonLoads payload, payload.is_template = none →
      (∀ msg, ("is_template", msg) ∉ (validatePromptPayload jsonLoads payload).1) ∧
      (validatePromptPayload jsonLoads payload).2.is_template = false) ∧
    (∀ s, pyLower (pyStrip s) ∈ (["true", "1", "yes", "on"] : List String) →
      normalizeBool (.pystr s) = some true) ∧
    (∀ s, pyLower (pyStrip s) ∈ (["false", "0", "no", "off"] : List String) →
      normalizeBool (.pystr s) = some false) ∧
    (∀ s, pyLower (pyStrip s) ∉ (["true", "1", "yes", "on"] : List String) →
      pyLower (pyStrip s) ∉ (["false", "0", "no", "off"] : List String) →
      normalizeBool (.pystr s) = none) ∧
    (∀ jsonLoads gen db payload files s, payload.is_template = some (.pystr s) →
      normalizeBool (.pystr s) = none →
      ∃ errs, createPrompt jsonLoads gen db payload files = .validationError db errs ∧
        ("is_template", "is_template must be a boolean.") ∈ errs) ∧
    (∀ jsonLoads gen db payload files db' pid written, payload.is_template = none →
      createPrompt jsonLoads gen db payload files = .success db' pid written →
      ∀ p', db'.prompts.getLast? = some p' → p'.is_template = false) := by
  have hmem_template : ∀ (jl : String → Option Json) (payload : Payload) (v : PyVal),
      payload.is_template = some v → normalizeBool v = none →
      ("is_template", "is_template must be a boolean.") ∈ (validatePromptPayload jl payload).1 := by
    intro jl payload v hv hnorm
    simp only [validatePromptPayload, hv, Option.getD_some, hnorm, List.mem_append]
    left; right
    simp
  refine ⟨?_, ?_, ?_, ?_, ?_, ?_⟩
  · intro jl payload h
    have hnorm : normalizeBool (payload.is_template.getD (.pybool false)) = some false := by
      rw [h]; rfl
    constructor
    · intro msg
      simp only [validatePromptPayload, h, Option.getD_none, List.mem_append]
      have : normalizeBool (PyVal.pybool false) = some false := rfl
      rw [this]
      intro hmem
      rcases hmem with ((((h' | h') | h') | h') | h') <;>
        · split at h' <;> simp_all
    · simp [validatePromptPayload, h, normalizeBool]
  · intro s hs
    have hc : (["true", "1", "yes", "on"].contains (pyLower (pyStrip s))) = true := by
      simpa using hs
    simp only [normalizeBool]
    rw [hc]
    simp
  · intro s hs
    have hs' : pyLower (pyStrip s) = "false" ∨ pyLower (pyStrip s) = "0" ∨
        pyLower (pyStrip s) = "no" ∨ pyLower (pyStrip s) = "off" := by
      simpa using hs
    have hc2 : (["false", "0", "no", "off"].contains (pyLower (pyStrip s))) = true := by
      simpa using hs
    have hc1 : (["true", "1", "yes", "on"].contains (pyLower (pyStrip s))) = false := by
      rcases hs' with h | h | h | h <;> rw [h] <;> rfl
    simp only [normalizeBool]
    rw [hc1, hc2]
    simp
  · intro s h1 h2
    have h1' : (["true", "1", "yes", "on"].contains (pyLower (pyStrip s))) = false := by
      simpa using h1
    have h2' : (["false", "0", "no", "off"].contains (pyLower (pyStrip s))) = false := by
      simpa using h2
    simp only [normalizeBool]
    rw [h1', h2']
    simp
  · intro jl gen db payload files s hv hnorm
    have hmem := hmem_template jl payload (.pystr s) hv hnorm
    have hne : (validatePromptPayload jl payload).1 ≠ [] := by
      intro h
      rw [h] at hmem
      exact List.not_mem_nil _ hmem
    exact ⟨(validatePromptPayload jl payload).1, by simp only [createPrompt, if_pos hne], hmem⟩
  · intro jl gen db payload files db' pid written h hsuc p' hlast
    have hfalse : (validatePromptPayload jl payload).2.is_template = false := by
      simp [validatePromptPayload, h, normalizeBool]
    simp only [createPrompt] at hsuc
    split at hsuc
    · exact absurd hsuc (by simp)
    · split at hsuc
      · exact absurd hsuc (by simp)
      · rename_i rows heq
        injection hsuc with h1 h2 h3
        subst h1
        simp only [List.getLast?_concat] at hlast
        injection hlast with h4
        subst h4
        exact hfalse

/-- Witness for C9 at concrete inputs: with `is_template` absent the
created prompt is stored as a non-template, and the string `" ON "`
normalizes to `true`. -/
theorem is_template_validation_witness :
    (∀ p', (DB.mk [⟨1, "Research"⟩] [⟨1, "Planning", 1⟩]
          [⟨1, "Focus Finder", "Build a focus plan for the day.", false, none, 1⟩] []
          2 2 2 1).prompts.getLast? = some p' → p'.is_template = false) ∧
      normalizeBool (.pystr " ON ") = some true := by
  constructor
  · exact is_template_validation.2.2.2.2.2 jsonLoadsStub genStub
      ⟨[], [], [], [], 1, 1, 1, 1⟩ okPayload [] _ 1 [] rfl rfl
  · exact is_template_validation.2.1 " ON " (by decide)

/-! ## Frame lemmas for the hierarchy resolver -/

/-- The resolver only touches the taxonomy tables: prompts, images and
their counters are untouched. -/
theorem getOrCreate_frame (db : DB) (a b : String) :
    (getOrCreateDomainAndSubtopic db a b).1.prompts = db.prompts ∧
    (getOrCreateDomainAndSubtopic db a b).1.images = db.images ∧
    (getOrCreateDomainAndSubtopic db a b).1.nextPromptId = db.nextPromptId ∧
    (getOrCreateDomainAndSubtopic db a b).1.nextImageId = db.nextImageId := by
  unfold getOrCreateDomainAndSubtopic getOrCreateSubtopic
  split
  · split
    · exact ⟨rfl, rfl, rfl, rfl⟩
    · exact ⟨rfl, rfl, rfl, rfl⟩
  · split
    · exact ⟨rfl, rfl, rfl, rfl⟩
    · exact ⟨rfl, rfl, rfl, rfl⟩

/-! ## C8: JSON bodies carry no images -/

/-- Claim C8. A JSON-bodied create/update request collects an empty file
list, so it attaches no images and writes no files no matter what the JSON
payload contains; and the files collected from a form depend only on the
`images` and `images[]` fields. -/
theorem json_body_attaches_no_images :
    (∀ body, (collectPayloadAndFiles (.jsonReq body)).2 = []) ∧
    (∀ jsonLoads gen db body db' pid written,
      createPromptRequest jsonLoads gen db (.jsonReq body) = .success db' pid written →
      db'.images = db.images ∧ written = []) ∧
    (∀ jsonLoads gen db promptId body db' pid written,
      updatePromptRequest jsonLoads gen db promptId (.jsonReq body) = .success db' pid written →
      db'.images = db.images ∧ written = []) ∧
    (∀ payload files files',
      getlist "images" files = getlist "images" files' →
      getlist "images[]" files = getlist "images[]" files' →
      collectPayloadAndFiles (.formReq payload files) =
        collectPayloadAndFiles (.formReq payload files')) := by
  have hattach : ∀ (c : Nat) (gen : Nat → String), attachImages c gen [] = .ok [] := by
    intro c gen
    rfl
  refine ⟨fun _ => rfl, ?_, ?_, ?_⟩
  · intro jl gen db body db' pid written h
    simp only [createPromptRequest, collectPayloadAndFiles, createPrompt, hattach] at h
    split at h
    · exact absurd h (by simp)
    · injection h with h1 h2 h3
      subst h1
      refine ⟨?_, h3.symm⟩
      show (getOrCreateDomainAndSubtopic db _ _).1.images ++ addImageRows _ _ [] = db.images
    -- the empty batch adds no rows and the resolver leaves images alone
      rw [show ∀ n p, addImageRows n p [] = [] from fun _ _ => rfl, List.append_nil]
      exact (getOrCreate_frame db _ _).2.1
  · intro jl gen db promptId body db' pid written h
    simp only [updatePromptRequest, collectPayloadAndFiles, updatePrompt, hattach] at h
    split at h
    · exact absurd h (by simp)
    · rename_i prompt hfind
      split at h
      · exact absurd h (by simp)
      · injection h with h1 h2 h3
        subst h1
        refine ⟨?_, h3.symm⟩
        show (getOrCreateDomainAndSubtopic db _ _).1.images ++ addImageRows _ _ [] = db.images
        rw [show ∀ n p, addImageRows n p [] = [] from fun _ _ => rfl, List.append_nil]
        exact (getOrCreate_frame db _ _).2.1
  · intro payload files files' h1 h2
    simp only [collectPayloadAndFiles, h1, h2]

/-- Witness for C8: a concrete JSON create request against an empty
database succeeds and leaves the images table empty. -/
theorem json_body_attaches_no_images_witness :
    ∃ db' pid written,
      createPromptRequest jsonLoadsStub genStub ⟨[], [], [], [], 1, 1, 1, 1⟩
          (.jsonReq (some okPayload)) = .success db' pid written ∧
      db'.images = ([] : List ImageRow) ∧ written = ([] : List String) := by
  refine ⟨_, 1, [], rfl, ?_⟩
  have := json_body_attaches_no_images.2.1 jsonLoadsStub genStub
    ⟨[], [], [], [], 1, 1, 1, 1⟩ (some okPayload) _ 1 [] rfl
  exact this

/-! ## Helper lemmas about attached image rows -/

theorem attachRowsFrom_length (gen : Nat → String) (c : Nat) :
    ∀ (i : Nat) (fs : List FileStorage), (attachRowsFrom gen c i fs).length = fs.length := by
  intro i fs
  induction fs generalizing i with
  | nil => rfl
  | cons f fs ih => simpa [attachRowsFrom] using ih (i + 1)

theorem attachRowsFrom_map_sort (gen : Nat → String) (c : Nat) :
    ∀ (i : Nat) (fs : List FileStorage),
      (attachRowsFrom gen c i fs).map (fun r => r.sort_order) =
        (List.range fs.length).map (fun j => c + (i + j)) := by
  intro i fs
  induction fs generalizing i with
  | nil => rfl
  | cons f fs ih =>
    have h1 : (attachRowsFrom gen c i (f :: fs)).map (fun r => r.sort_order) =
        (c + i) :: (attachRowsFrom gen c (i + 1) fs).map (fun r => r.sort_order) := rfl
    rw [h1, ih (i + 1), List.length_cons, List.range_succ_eq_map, List.map_cons, List.map_map]
    congr 1
    apply List.map_congr_left
    intro a _
    simp only [Function.comp_apply, Nat.succ_eq_add_one]
    omega

theorem addImageRows_length (pid : Nat) :
    ∀ (n : Nat) (rows : List NewImage), (addImageRows n pid rows).length = rows.length := by
  intro n rows
  induction rows generalizing n with
  | nil => rfl
  | cons r rs ih => simpa [addImageRows] using ih (n + 1)

theorem addImageRows_map_sort (pid : Nat) :
    ∀ (n : Nat) (rows : List NewImage),
      (addImageRows n pid rows).map (fun r => r.sort_order) =
        rows.map (fun r => r.sort_order) := by
  intro n rows
  induction rows generalizing n with
  | nil => rfl
  | cons r rs ih => simpa [addImageRows] using ih (n + 1)

theorem addImageRows_prompt_id (pid : Nat) :
    ∀ (n : Nat) (rows : List NewImage), ∀ r ∈ addImageRows n pid rows, r.prompt_id = pid := by
  intro n rows
  induction rows generalizing n with
  | nil => intro r hr; cases hr
  | cons x xs ih =>
    intro r hr
    rcases hr with _ | ⟨_, hr⟩
    · rfl
    · exact ih (n + 1) r hr

/-- Outcome analysis of a successful `_attach_images` call: either the
cleaned batch was empty and nothing was added, or the batch passed the cap
check and the returned rows are the indexed batch rows. -/
theorem attach_ok_cases (c : Nat) (gen : Nat → String) (files : List FileStorage)
    (rows : List NewImage) (h : attachImages c gen files = .ok rows) :
    (files.filter (fun f => f.filename ≠ "") = [] ∧ rows = []) ∨
    (files.filter (fun f => f.filename ≠ "") ≠ [] ∧
      c + (files.filter (fun f => f.filename ≠ "")).length ≤ MAX_IMAGES_PER_PROMPT ∧
      rows = attachRowsFrom gen c 0 (files.filter (fun f => f.filename ≠ ""))) := by
  simp only [attachImages] at h
  split at h
  · rename_i hempty
    injection h with h'
    exact Or.inl ⟨List.isEmpty_iff.mp hempty, h'.symm⟩
  · rename_i hempty
    split at h
    · exact absurd h (by simp)
    · split at h
      · exact absurd h (by simp)
      · rename_i hcap _
        injection h with h'
        refine Or.inr ⟨?_, by omega, h'.symm⟩
        intro hnil
        rw [hnil] at hempty
        simp at hempty

/-- The number of images attached to prompt `p` in state `db`. -/
def imageCount (db : DB) (pid : Nat) : Nat :=
  (db.images.filter (fun i => i.prompt_id == pid)).length

/-- The cap invariant of §3 of the spec: no prompt ever has more than
`MAX_IMAGES_PER_PROMPT` images. -/
def ImageCap (db : DB) : Prop :=
  ∀ p ∈ db.prompts, imageCount db p.id ≤ MAX_IMAGES_PER_PROMPT

/-- Lemma: `_attach_images` rejects with the limit error as soon as the cap is
exceeded (checked before the type check). -/
theorem attach_limit (c : Nat) (gen : Nat → String) (files : List FileStorage)
    (hne : files.filter (fun f => f.filename ≠ "") ≠ [])
    (hcap : MAX_IMAGES_PER_PROMPT < c + (files.filter (fun f => f.filename ≠ "")).length) :
    attachImages c gen files = .error .limit := by
  simp only [attachImages, List.isEmpty_iff]
  rw [if_neg hne, if_pos hcap]

/-- Lemma: `_attach_images` succeeds on a non-empty batch within the cap whose
files are all allowed, returning the indexed rows. -/
theorem attach_ok_of_valid (c : Nat) (gen : Nat → String) (files : List FileStorage)
    (hne : files.filter (fun f => f.filename ≠ "") ≠ [])
    (hcap : c + (files.filter (fun f => f.filename ≠ "")).length ≤ MAX_IMAGES_PER_PROMPT)
    (hall : ∀ f ∈ files.filter (fun f => f.filename ≠ ""), isAllowedImage f = true) :
    attachImages c gen files = .ok (attachRowsFrom gen c 0 (files.filter (fun f => f.filename ≠ ""))) := by
  have hfil : (files.filter (fun f => f.filename ≠ "")).filter (fun f => !(isAllowedImage f)) = [] := by
    apply List.filter_eq_nil_iff.mpr
    intro f hf
    simp [hall f hf]
  simp only [attachImages, List.isEmpty_iff]
  rw [if_neg hne, if_neg (by omega), hfil]
  rfl

/-! ## C4: the image cap -/

/-- Claim C4. A prompt never exceeds `MAX_IMAGES_PER_PROMPT` (8) images:
an attach call whose cleaned batch would push the count over 8 is rejected
with the limit error (and, through `update_prompt`, rolls the request back
to the caller's state, so no row or file is created); a non-empty valid
batch within the cap succeeds with one row per file; and both mutation
endpoints preserve the cap invariant on every committed state. -/
theorem image_cap :
    (∀ existingCount gen files,
      files.filter (fun f => f.filename ≠ "") ≠ [] →
      MAX_IMAGES_PER_PROMPT < existingCount + (files.filter (fun f => f.filename ≠ "")).length →
      attachImages existingCount gen files = .error .limit) ∧
    (∀ existingCount gen files,
      files.filter (fun f => f.filename ≠ "") ≠ [] →
      existingCount + (files.filter (fun f => f.filename ≠ "")).length ≤ MAX_IMAGES_PER_PROMPT →
      (∀ f ∈ files.filter (fun f => f.filename ≠ ""), isAllowedImage f = true) →
      ∃ rows, attachImages existingCount gen files = .ok rows ∧
        rows.length = (files.filter (fun f => f.filename ≠ "")).length) ∧
    (∀ jl gen db pid payload files prompt,
      db.prompts.find? (fun p => p.id == pid) = some prompt →
      (validatePromptPayload jl payload).1 = [] →
      files.filter (fun f => f.filename ≠ "") ≠ [] →
      MAX_IMAGES_PER_PROMPT < imageCount db pid + (files.filter (fun f => f.filename ≠ "")).length →
      updatePrompt jl gen db pid payload files =
        .imageError db [("images", attachErrorMessage .limit)] .limit) ∧
    (∀ jl gen db pid payload files db' rid written, ImageCap db →
      updatePrompt jl gen db pid payload files = .success db' rid written → ImageCap db') ∧
    (∀ jl gen db payload files db' pid written, DB.WF db → ImageCap db →
      createPrompt jl gen db payload files = .success db' pid written → ImageCap db') := by
  refine ⟨fun c gen files hne hcap => attach_limit c gen files hne hcap, ?_, ?_, ?_, ?_⟩
  · intro c gen files hne hcap hall
    exact ⟨_, attach_ok_of_valid c gen files hne hcap hall,
      attachRowsFrom_length gen c 0 _⟩
  · intro jl gen db pid payload files prompt hfind hval hne hcap
    have hatt : attachImages (imageCount db pid) gen files = .error .limit :=
      attach_limit _ gen files hne hcap
    simp only [updatePrompt, hfind, hval, ne_eq, not_true_eq_false, if_false,
      imageCount] at hatt ⊢
    rw [hatt]
    rfl
  · intro jl gen db pid payload files db' rid written hcap h
    simp only [updatePrompt] at h
    split at h
    · exact absurd h (by simp)
    · rename_i prompt hfind
      split at h
      · exact absurd h (by simp)
      · split at h
        · exact absurd h (by simp)
        · rename_i rows hatt
          injection h with h1 h2 h3
          subst h1
          have hpid : prompt.id = pid := by simpa using List.find?_some hfind
          have hframe := getOrCreate_frame db (validatePromptPayload jl payload).2.domain_name
            (validatePromptPayload jl payload).2.subtopic_name
          intro p hp
          simp only [hframe.1] at hp
          rw [List.mem_map] at hp
          obtain ⟨q, hq, rfl⟩ := hp
          simp only [imageCount, hframe.2.1, List.filter_append, List.length_append]
          by_cases hqid : (q.id == pid) = true
          · have hqpid : q.id = pid := by simpa using hqid
            simp only [hqid, if_true]
            have hupd_id :
                (PromptRow.mk prompt.id (validatePromptPayload jl payload).2.title
                  (validatePromptPayload jl payload).2.content
                  (validatePromptPayload jl payload).2.is_template
                  (validatePromptPayload jl payload).2.configurable_options
                  (getOrCreateDomainAndSubtopic db (validatePromptPayload jl payload).2.domain_name
                    (validatePromptPayload jl payload).2.subtopic_name).2.2).id = pid := hpid
            rw [hupd_id]
            have hall : (addImageRows
                (getOrCreateDomainAndSubtopic db (validatePromptPayload jl payload).2.domain_name
                  (validatePromptPayload jl payload).2.subtopic_name).1.nextImageId pid rows).filter
                  (fun i => i.prompt_id == pid) =
                addImageRows
                  (getOrCreateDomainAndSubtopic db (validatePromptPayload jl payload).2.domain_name
                    (validatePromptPayload jl payload).2.subtopic_name).1.nextImageId pid rows := by
              apply List.filter_eq_self.mpr
              intro r hr
              simp [addImageRows_prompt_id pid _ rows r hr]
            rw [hall, addImageRows_length]
            rcases attach_ok_cases _ gen files rows hatt with ⟨_, hrows⟩ | ⟨_, hcap', hrows⟩
            · subst hrows
              have := hcap prompt (List.mem_of_find?_eq_some hfind)
              simpa [imageCount, hpid] using this
            · have hlen : rows.length = (files.filter (fun f => f.filename ≠ "")).length := by
                rw [hrows, attachRowsFrom_length]
              change
                (db.images.filter (fun i => i.prompt_id == pid)).length + rows.length ≤
                  MAX_IMAGES_PER_PROMPT
              rw [hlen]
              exact hcap'
          · simp only [hqid, Bool.false_eq_true, if_false]
            have hnil : (addImageRows
                (getOrCreateDomainAndSubtopic db (validatePromptPayload jl payload).2.domain_name
                  (validatePromptPayload jl payload).2.subtopic_name).1.nextImageId pid rows).filter
                  (fun i => i.prompt_id == q.id) = [] := by
              apply List.filter_eq_nil_iff.mpr
              intro r hr
              have := addImageRows_prompt_id pid _ rows r hr
              simp only [this]
              intro hcontra
              exact hqid (by simpa using (by simpa using hcontra : pid = q.id).symm)
            rw [hnil]
            simpa [imageCount] using hcap q hq
  · intro jl gen db payload files db' pid written hwf hcap h
    simp only [createPrompt] at h
    split at h
    · exact absurd h (by simp)
    · split at h
      · exact absurd h (by simp)
      · rename_i rows hatt
        injection h with h1 h2 h3
        subst h1
        have hframe := getOrCreate_frame db (validatePromptPayload jl payload).2.domain_name
          (validatePromptPayload jl payload).2.subtopic_name
        have hnextp := hframe.2.2.1
        intro p hp
        simp only [hframe.1] at hp
        rw [List.mem_append] at hp
        have hnewpid :
            (getOrCreateDomainAndSubtopic db (validatePromptPayload jl payload).2.domain_name
              (validatePromptPayload jl payload).2.subtopic_name).1.nextPromptId =
              db.nextPromptId := hnextp
        rcases hp with hold | hnew
        · -- an old prompt: its id is below the fresh id, so the new rows do not count
          have hlt : p.id < db.nextPromptId := hwf.2.2.2.2.2.1 p hold
          simp only [imageCount, hframe.2.1, List.filter_append, List.length_append, hnewpid]
          have hnil : (addImageRows
              (getOrCreateDomainAndSubtopic db (validatePromptPayload jl payload).2.domain_name
                (validatePromptPayload jl payload).2.subtopic_name).1.nextImageId
              db.nextPromptId rows).filter (fun i => i.prompt_id == p.id) = [] := by
            apply List.filter_eq_nil_iff.mpr
            intro r hr
            have := addImageRows_prompt_id db.nextPromptId _ rows r hr
            simp only [this]
            simp only [beq_iff_eq]
            omega
          rw [hnil]
          simpa [imageCount] using hcap p hold
        · -- the new prompt: no committed image references the fresh id yet
          simp only [List.mem_singleton] at hnew
          subst hnew
          simp only [imageCount, hframe.2.1, List.filter_append, List.length_append, hnewpid]
          have hold_nil : db.images.filter
              (fun i => i.prompt_id == db.nextPromptId) = [] := by
            apply List.filter_eq_nil_iff.mpr
            intro i hi
            obtain ⟨pr, hpr, hpr_id⟩ := hwf.2.2.2.2.2.2.2.2 i hi
            have := hwf.2.2.2.2.2.1 pr hpr
            simp only [beq_iff_eq]
            omega
          have hall : (addImageRows
              (getOrCreateDomainAndSubtopic db (validatePromptPayload jl payload).2.domain_name
                (validatePromptPayload jl payload).2.subtopic_name).1.nextImageId
              db.nextPromptId rows).filter (fun i => i.prompt_id == db.nextPromptId) =
              addImageRows
                (getOrCreateDomainAndSubtopic db (validatePromptPayload jl payload).2.domain_name
                  (validatePromptPayload jl payload).2.subtopic_name).1.nextImageId
                db.nextPromptId rows := by
            apply List.filter_eq_self.mpr
            intro r hr
            simp [addImageRows_prompt_id db.nextPromptId _ rows r hr]
          rw [hold_nil, hall, addImageRows_length]
          rcases attach_ok_cases _ gen files rows hatt with ⟨_, hrows⟩ | ⟨_, hcap', hrows⟩
          · subst hrows
            simp [MAX_IMAGES_PER_PROMPT]
          · have hlen : rows.length = (files.filter (fun f => f.filename ≠ "")).length := by
              rw [hrows, attachRowsFrom_length]
            simp only [List.length_nil, Nat.zero_add]
            omega

/-- A concrete valid upload used by witnesses. -/
def pngFile : FileStorage := ⟨"cat.png", "image/png"⟩

/-- A batch of eight valid uploads. -/
def files8 : List FileStorage :=
  [pngFile, pngFile, pngFile, pngFile, pngFile, pngFile, pngFile, pngFile]

/-- Witness for C4 at concrete inputs: attaching 8 valid images to a prompt
with zero images succeeds with 8 rows, and a 9th upload against a count of
8 is rejected with the limit error. -/
theorem image_cap_witness :
    (∃ rows, attachImages 0 genStub files8 = .ok rows ∧ rows.length = 8) ∧
    attachImages 8 genStub [pngFile] = .error .limit := by
  constructor
  · obtain ⟨rows, hok, hlen⟩ :=
      image_cap.2.1 0 genStub files8 (by decide) (by decide) (by decide)
    refine ⟨rows, hok, ?_⟩
    rw [hlen]
    decide
  · exact image_cap.1 8 genStub [pngFile] (by decide) (by decide)

/-! ## C5: `sort_order` assignment -/

/-- The `sort_order`s of a successful batch are
`existingCount, existingCount + 1, …` in upload order. -/
theorem attach_ok_map_sort (c : Nat) (gen : Nat → String) (files : List FileStorage)
    (rows : List NewImage) (h : attachImages c gen files = .ok rows) :
    rows.map (fun r => r.sort_order) =
      (List.range (files.filter (fun f => f.filename ≠ "")).length).map (fun i => c + i) := by
  rcases attach_ok_cases c gen files rows h with ⟨hf, hrows⟩ | ⟨_, _, hrows⟩
  · subst hrows
    rw [hf]
    rfl
  · subst hrows
    rw [attachRowsFrom_map_sort]
    apply List.map_congr_left
    intro a _
    omega

/-- Claim C5. On a successful attach the `i`-th file of the cleaned batch
(0-based, in upload order) becomes a row with
`sort_order = existing count + i`; through `update_prompt`, the new rows
are appended after the existing image rows, which are left byte-for-byte
unchanged, and every new row belongs to the updated prompt.  (`sort_order`
is a `Nat`, so all values are non-negative.) -/
theorem attach_sort_order :
    (∀ gen c files rows, attachImages c gen files = .ok rows →
      rows.map (fun r => r.sort_order) =
        (List.range (files.filter (fun f => f.filename ≠ "")).length).map (fun i => c + i)) ∧
    (∀ jl gen db pid payload files db' rid written,
      updatePrompt jl gen db pid payload files = .success db' rid written →
      ∃ newRows, db'.images = db.images ++ newRows ∧
        (∀ r ∈ newRows, r.prompt_id = pid) ∧
        newRows.map (fun r => r.sort_order) =
          (List.range (files.filter (fun f => f.filename ≠ "")).length).map
            (fun i => imageCount db pid + i)) := by
  constructor
  · intro gen c files rows h
    exact attach_ok_map_sort c gen files rows h
  · intro jl gen db pid payload files db' rid written h
    simp only [updatePrompt] at h
    split at h
    · exact absurd h (by simp)
    · rename_i prompt hfind
      split at h
      · exact absurd h (by simp)
      · split at h
        · exact absurd h (by simp)
        · rename_i rows hatt
          injection h with h1 h2 h3
          subst h1
          have hframe := getOrCreate_frame db (validatePromptPayload jl payload).2.domain_name
            (validatePromptPayload jl payload).2.subtopic_name
          refine ⟨addImageRows
            (getOrCreateDomainAndSubtopic db (validatePromptPayload jl payload).2.domain_name
              (validatePromptPayload jl payload).2.subtopic_name).1.nextImageId pid rows, ?_, ?_, ?_⟩
          · show (getOrCreateDomainAndSubtopic db (validatePromptPayload jl payload).2.domain_name
                (validatePromptPayload jl payload).2.subtopic_name).1.images ++ _ = _
            rw [hframe.2.1]
          · exact addImageRows_prompt_id pid _ rows
          · rw [addImageRows_map_sort]
            exact attach_ok_map_sort _ gen files rows hatt

/-- Witness for C5 at concrete inputs: a 2-file batch against an existing
count of 3 produces rows with `sort_order` 3 and 4. -/
theorem attach_sort_order_witness :
    (attachRowsFrom genStub 3 0 [pngFile, pngFile]).map (fun r => r.sort_order) = [3, 4] := by
  have h := attach_sort_order.1 genStub 3 [pngFile, pngFile]
    (attachRowsFrom genStub 3 0 [pngFile, pngFile]) rfl
  rw [h]
  rfl

/-! ## C3: invalid image types reject the whole batch atomically -/

/-- Lemma: `_attach_images` rejects with the type error when the batch is within
the cap but contains a disallowed file. -/
theorem attach_invalid (c : Nat) (gen : Nat → String) (files : List FileStorage)
    (hne : files.filter (fun f => f.filename ≠ "") ≠ [])
    (hcapok : ¬ MAX_IMAGES_PER_PROMPT < c + (files.filter (fun f => f.filename ≠ "")).length)
    (f : FileStorage) (hf : f ∈ files.filter (fun f => f.filename ≠ ""))
    (hbad : isAllowedImage f = false) :
    attachImages c gen files = .error .invalidType := by
  have hnil : (files.filter (fun f => f.filename ≠ "")).filter
      (fun f => !(isAllowedImage f)) ≠ [] := by
    intro h0
    have := List.filter_eq_nil_iff.mp h0 f hf
    simp [hbad] at this
  have hc : ((files.filter (fun f => f.filename ≠ "")).filter
      (fun f => !(isAllowedImage f))).isEmpty = false := by
    cases hc' : ((files.filter (fun f => f.filename ≠ "")).filter
        (fun f => !(isAllowedImage f))).isEmpty with
    | false => rfl
    | true => exact absurd (List.isEmpty_iff.mp hc') hnil
  simp only [attachImages, List.isEmpty_iff]
  rw [if_neg hne, if_neg hcapok, hc]
  rfl

/-- A batch containing a disallowed file is always rejected (with the limit
error when the cap check fires first, the type error otherwise). -/
theorem attach_error_of_invalid (c : Nat) (gen : Nat → String) (files : List FileStorage)
    (f : FileStorage) (hf : f ∈ files.filter (fun f => f.filename ≠ ""))
    (hbad : isAllowedImage f = false) :
    ∃ e, attachImages c gen files = .error e := by
  have hne : files.filter (fun f => f.filename ≠ "") ≠ [] := List.ne_nil_of_mem hf
  by_cases hcap : MAX_IMAGES_PER_PROMPT < c + (files.filter (fun f => f.filename ≠ "")).length
  · exact ⟨.limit, attach_limit c gen files hne hcap⟩
  · exact ⟨.invalidType, attach_invalid c gen files hne hcap f hf hbad⟩

/-- An empty database used by several witnesses. -/
def emptyDB : DB := ⟨[], [], [], [], 1, 1, 1, 1⟩

/-- Claim C3. If any file of the cleaned batch has a disallowed sanitized
extension or a non-`image/` mimetype, the attach is rejected with an image
error, and the enclosing create/update mutation returns a 400 whose state
is the caller's original `db` — the whole transaction (prompt write and
any resolver inserts) is rolled back, and no row or file of this call
persists (the error path returns before any file is written). -/
theorem invalid_image_batch_rejected :
    (∀ c gen files f, f ∈ files.filter (fun f => f.filename ≠ "") →
      isAllowedImage f = false →
      ∃ e, attachImages c gen files = .error e) ∧
    (∀ jl gen db payload files f,
      (validatePromptPayload jl payload).1 = [] →
      f ∈ files.filter (fun f => f.filename ≠ "") →
      isAllowedImage f = false →
      ∃ e, createPrompt jl gen db payload files =
        .imageError db [("images", attachErrorMessage e)] e) ∧
    (∀ jl gen db pid payload files prompt f,
      db.prompts.find? (fun p => p.id == pid) = some prompt →
      (validatePromptPayload jl payload).1 = [] →
      f ∈ files.filter (fun f => f.filename ≠ "") →
      isAllowedImage f = false →
      ∃ e, updatePrompt jl gen db pid payload files =
        .imageError db [("images", attachErrorMessage e)] e) := by
  refine ⟨fun c gen files f hf hbad => attach_error_of_invalid c gen files f hf hbad, ?_, ?_⟩
  · intro jl gen db payload files f hval hf hbad
    obtain ⟨e, hatt⟩ := attach_error_of_invalid 0 gen files f hf hbad
    have hvne : ¬ (validatePromptPayload jl payload).1 ≠ [] := by simp [hval]
    refine ⟨e, ?_⟩
    simp only [createPrompt]
    rw [if_neg hvne, hatt, hval]
    rfl
  · intro jl gen db pid payload files prompt f hfind hval hf hbad
    obtain ⟨e, hatt⟩ := attach_error_of_invalid
      ((db.images.filter (fun i => i.prompt_id == pid)).length) gen files f hf hbad
    have hvne : ¬ (validatePromptPayload jl payload).1 ≠ [] := by simp [hval]
    refine ⟨e, ?_⟩
    simp only [updatePrompt, hfind]
    rw [if_neg hvne, hatt, hval]
    rfl

/-- Witness for C3 at concrete inputs: a 3-file batch with one `.txt` file
is rejected by `create_prompt` against the empty database, which is
returned unchanged. -/
theorem invalid_image_batch_rejected_witness :
    ∃ e, createPrompt jsonLoadsStub genStub emptyDB okPayload
        [⟨"cat.png", "image/png"⟩, ⟨"doc.txt", "text/plain"⟩, ⟨"dog.png", "image/png"⟩] =
      .imageError emptyDB [("images", attachErrorMessage e)] e :=
  invalid_image_batch_rejected.2.1 jsonLoadsStub genStub emptyDB okPayload
    [⟨"cat.png", "image/png"⟩, ⟨"doc.txt", "text/plain"⟩, ⟨"dog.png", "image/png"⟩]
    ⟨"doc.txt", "text/plain"⟩ (by decide) (by decide) (by decide)

/-! ## Evaluation lemmas for the hierarchy resolver -/

/-- Subtopic-step evaluation when the lookup hits. -/
theorem getOrCreateSubtopic_eval_found (db : DB) (did : Nat) (b : String) (sr : SubtopicRow)
    (hfs : db.subtopics.find?
      (fun x => x.domain_id == did && pyLower x.name == pyLower b) = some sr) :
    getOrCreateSubtopic db did b = (db, did, sr.id) := by
  unfold getOrCreateSubtopic
  split
  · rename_i s hfs'
    rw [hfs'] at hfs
    injection hfs with h
    subst h
    rfl
  · rename_i hfs'
    rw [hfs'] at hfs
    cases hfs

/-- Subtopic-step evaluation when the lookup misses. -/
theorem getOrCreateSubtopic_eval_none (db : DB) (did : Nat) (b : String)
    (hfs : db.subtopics.find?
      (fun x => x.domain_id == did && pyLower x.name == pyLower b) = none) :
    getOrCreateSubtopic db did b =
      ({ db with
          subtopics := db.subtopics ++ [⟨db.nextSubtopicId, b, did⟩],
          nextSubtopicId := db.nextSubtopicId + 1 }, did, db.nextSubtopicId) := by
  unfold getOrCreateSubtopic
  split
  · rename_i s hfs'
    rw [hfs'] at hfs
    cases hfs
  · rfl

/-- Resolver evaluation when both lookups hit. -/
theorem getOrCreate_eval_found_found (db : DB) (a b : String) (dr : DomainRow) (sr : SubtopicRow)
    (hfd : db.domains.find? (fun x => pyLower x.name == pyLower a) = some dr)
    (hfs : db.subtopics.find?
      (fun x => x.domain_id == dr.id && pyLower x.name == pyLower b) = some sr) :
    getOrCreateDomainAndSubtopic db a b = (db, dr.id, sr.id) := by
  unfold getOrCreateDomainAndSubtopic
  split
  · rename_i d hfd'
    rw [hfd'] at hfd
    injection hfd with h
    subst h
    exact getOrCreateSubtopic_eval_found db d.id b sr hfs
  · rename_i hfd'
    rw [hfd'] at hfd
    cases hfd

/-- Resolver evaluation when the domain hits and the subtopic misses. -/
theorem getOrCreate_eval_found_none (db : DB) (a b : String) (dr : DomainRow)
    (hfd : db.domains.find? (fun x => pyLower x.name == pyLower a) = some dr)
    (hfs : db.subtopics.find?
      (fun x => x.domain_id == dr.id && pyLower x.name == pyLower b) = none) :
    getOrCreateDomainAndSubtopic db a b =
      ({ db with
          subtopics := db.subtopics ++ [⟨db.nextSubtopicId, b, dr.id⟩],
          nextSubtopicId := db.nextSubtopicId + 1 }, dr.id, db.nextSubtopicId) := by
  unfold getOrCreateDomainAndSubtopic
  split
  · rename_i d hfd'
    rw [hfd'] at hfd
    injection hfd with h
    subst h
    exact getOrCreateSubtopic_eval_none db d.id b hfs
  · rename_i hfd'
    rw [hfd'] at hfd
    cases hfd

/-- Resolver evaluation when the domain lookup misses and no stored
subtopic row references the fresh domain id (which well-formedness
guarantees). -/
theorem getOrCreate_eval_none (db : DB) (a b : String)
    (hfd : db.domains.find? (fun x => pyLower x.name == pyLower a) = none)
    (hfs : db.subtopics.find?
      (fun x => x.domain_id == db.nextDomainId && pyLower x.name == pyLower b) = none) :
    getOrCreateDomainAndSubtopic db a b =
      ({ db with
          domains := db.domains ++ [⟨db.nextDomainId, a⟩],
          nextDomainId := db.nextDomainId + 1,
          subtopics := db.subtopics ++ [⟨db.nextSubtopicId, b, db.nextDomainId⟩],
          nextSubtopicId := db.nextSubtopicId + 1 },
        db.nextDomainId, db.nextSubtopicId) := by
  unfold getOrCreateDomainAndSubtopic
  split
  · rename_i d hfd'
    rw [hfd'] at hfd
    cases hfd
  · exact getOrCreateSubtopic_eval_none
      { db with
          domains := db.domains ++ [⟨db.nextDomainId, a⟩],
          nextDomainId := db.nextDomainId + 1 }
      db.nextDomainId b hfs

/-! ## C2: resolver idempotence -/

/-- Claim C2. Resolution is idempotent under case-insensitive equivalence:
after one resolver call produced state `db1` and ids `(did, sid)`, a second
call with names equal up to ASCII case returns exactly `(db1, did, sid)` —
the same domain and subtopic ids, no new rows (the state is returned
unchanged, so no duplicates and no change to the stored casing of the
first-created records). -/
theorem resolver_idempotent (db : DB) (hwf : db.WF)
    (d1 s1 d2 s2 : String) (hd1 : d1 ≠ "") (hs1 : s1 ≠ "")
    (hd : pyLower d1 = pyLower d2) (hs : pyLower s1 = pyLower s2) :
    ∀ db1 did sid, getOrCreateDomainAndSubtopic db d1 s1 = (db1, did, sid) →
      getOrCreateDomainAndSubtopic db1 d2 s2 = (db1, did, sid) := by
  intro db1 did sid h1
  have hpd : (fun x : DomainRow => pyLower x.name == pyLower d2) =
      (fun x : DomainRow => pyLower x.name == pyLower d1) :=
    funext fun x => by rw [hd]
  have hps : ∀ i : Nat,
      (fun x : SubtopicRow => x.domain_id == i && pyLower x.name == pyLower s2) =
        (fun x : SubtopicRow => x.domain_id == i && pyLower x.name == pyLower s1) :=
    fun i => funext fun x => by rw [hs]
  cases hfd : db.domains.find? (fun x => pyLower x.name == pyLower d1) with
  | some d =>
    cases hfs : db.subtopics.find?
        (fun x => x.domain_id == d.id && pyLower x.name == pyLower s1) with
    | some s =>
      rw [getOrCreate_eval_found_found db d1 s1 d s hfd hfs, Prod.mk.injEq, Prod.mk.injEq] at h1
      obtain ⟨rfl, rfl, rfl⟩ := h1
      refine getOrCreate_eval_found_found db d2 s2 d s ?_ ?_
      · rw [hpd]
        exact hfd
      · rw [hps d.id]
        exact hfs
    | none =>
      rw [getOrCreate_eval_found_none db d1 s1 d hfd hfs, Prod.mk.injEq, Prod.mk.injEq] at h1
      obtain ⟨rfl, rfl, rfl⟩ := h1
      refine getOrCreate_eval_found_found _ d2 s2 d ⟨db.nextSubtopicId, s1, d.id⟩ ?_ ?_
      · rw [hpd]
        exact hfd
      · rw [hps d.id]
        show (db.subtopics ++ [(⟨db.nextSubtopicId, s1, d.id⟩ : SubtopicRow)]).find?
            (fun x : SubtopicRow => x.domain_id == d.id && pyLower x.name == pyLower s1) =
          some (⟨db.nextSubtopicId, s1, d.id⟩ : SubtopicRow)
        rw [List.find?_append, hfs]
        simp
  | none =>
    have hsubnone : db.subtopics.find?
        (fun x => x.domain_id == db.nextDomainId && pyLower x.name == pyLower s1) = none := by
      apply List.find?_eq_none.mpr
      intro x hx
      obtain ⟨dd, hdd, hddid⟩ := hwf.2.2.2.2.2.2.1 x hx
      have hlt := hwf.2.2.2.1 dd hdd
      simp only [Bool.and_eq_true, beq_iff_eq, not_and]
      intro hcontra
      omega
    rw [getOrCreate_eval_none db d1 s1 hfd hsubnone, Prod.mk.injEq, Prod.mk.injEq] at h1
    obtain ⟨rfl, rfl, rfl⟩ := h1
    refine getOrCreate_eval_found_found _ d2 s2 ⟨db.nextDomainId, d1⟩
      ⟨db.nextSubtopicId, s1, db.nextDomainId⟩ ?_ ?_
    · rw [hpd]
      show (db.domains ++ [(⟨db.nextDomainId, d1⟩ : DomainRow)]).find?
          (fun x : DomainRow => pyLower x.name == pyLower d1) =
        some (⟨db.nextDomainId, d1⟩ : DomainRow)
      rw [List.find?_append, hfd]
      simp
    · rw [hps db.nextDomainId]
      show (db.subtopics ++ [(⟨db.nextSubtopicId, s1, db.nextDomainId⟩ : SubtopicRow)]).find?
          (fun x : SubtopicRow =>
            x.domain_id == db.nextDomainId && pyLower x.name == pyLower s1) =
        some (⟨db.nextSubtopicId, s1, db.nextDomainId⟩ : SubtopicRow)
      rw [List.find?_append, hsubnone]
      simp

/-- Witness for C2 at concrete inputs: resolving `("Research", "Planning")`
on the empty database and then resolving `("RESEARCH", "planning")` on the
result returns the same ids `(1, 1)` and the unchanged state. -/
theorem resolver_idempotent_witness :
    getOrCreateDomainAndSubtopic
        (getOrCreateDomainAndSubtopic emptyDB "Research" "Planning").1 "RESEARCH" "planning" =
      ((getOrCreateDomainAndSubtopic emptyDB "Research" "Planning").1, 1, 1) :=
  resolver_idempotent emptyDB (by decide) "Research" "Planning" "RESEARCH" "planning"
    (by decide) (by decide) (by decide) (by decide) _ 1 1 rfl

/-! ## C7: update re-parents without pruning -/

/-- Claim C7. Updating an existing prompt to a previously-unseen
domain name creates exactly one new `Domain` row and one new `Subtopic`
row (appended, with fresh ids) and re-parents the prompt to the new
subtopic; every pre-existing row — in particular the prompt's old
subtopic and domain, even if now childless — survives unchanged: pruning
never happens on the update path. -/
theorem update_reparents_without_pruning (jl : String → Option Json) (gen : Nat → String)
    (db : DB) (pid : Nat) (payload : Payload) (prompt : PromptRow)
    (hwf : db.WF)
    (hfind : db.prompts.find? (fun p => p.id == pid) = some prompt)
    (hval : (validatePromptPayload jl payload).1 = [])
    (hunseen : ∀ d ∈ db.domains,
      pyLower d.name ≠ pyLower (validatePromptPayload jl payload).2.domain_name) :
    ∃ db', updatePrompt jl gen db pid payload [] = .success db' pid [] ∧
      db'.domains = db.domains ++
        [⟨db.nextDomainId, (validatePromptPayload jl payload).2.domain_name⟩] ∧
      db'.subtopics = db.subtopics ++
        [⟨db.nextSubtopicId, (validatePromptPayload jl payload).2.subtopic_name,
          db.nextDomainId⟩] ∧
      db'.images = db.images ∧
      (∃ p' ∈ db'.prompts, p'.id = pid ∧ p'.subtopic_id = db.nextSubtopicId) ∧
      (∀ p ∈ db'.prompts, p.id ≠ pid → p ∈ db.prompts) := by
  have hfd : db.domains.find?
      (fun x => pyLower x.name == pyLower (validatePromptPayload jl payload).2.domain_name) =
      none := by
    apply List.find?_eq_none.mpr
    intro d hd
    simpa using hunseen d hd
  have hfs : db.subtopics.find?
      (fun x => x.domain_id == db.nextDomainId &&
        pyLower x.name == pyLower (validatePromptPayload jl payload).2.subtopic_name) =
      none := by
    apply List.find?_eq_none.mpr
    intro x hx
    obtain ⟨dd, hdd, hddid⟩ := hwf.2.2.2.2.2.2.1 x hx
    have hlt := hwf.2.2.2.1 dd hdd
    simp only [Bool.and_eq_true, beq_iff_eq, not_and]
    intro hcontra
    omega
  have hres := getOrCreate_eval_none db (validatePromptPayload jl payload).2.domain_name
    (validatePromptPayload jl payload).2.subtopic_name hfd hfs
  have hvne : ¬ (validatePromptPayload jl payload).1 ≠ [] := by simp [hval]
  have hpid : prompt.id = pid := by simpa using List.find?_some hfind
  have hpidbeq : (prompt.id == pid) = true := by simp [hpid]
  refine ⟨DB.mk
      (db.domains ++ [⟨db.nextDomainId, (validatePromptPayload jl payload).2.domain_name⟩])
      (db.subtopics ++
        [⟨db.nextSubtopicId, (validatePromptPayload jl payload).2.subtopic_name,
          db.nextDomainId⟩])
      (db.prompts.map
        (fun p : PromptRow => if (p.id == pid) = true then
          (⟨prompt.id, (validatePromptPayload jl payload).2.title,
            (validatePromptPayload jl payload).2.content,
            (validatePromptPayload jl payload).2.is_template,
            (validatePromptPayload jl payload).2.configurable_options,
            db.nextSubtopicId⟩ : PromptRow) else p))
      (db.images ++ [])
      (db.nextDomainId + 1) (db.nextSubtopicId + 1) db.nextPromptId db.nextImageId,
    ?_, ?_, ?_, ?_, ?_, ?_⟩
  · simp only [updatePrompt, hfind]
    rw [if_neg hvne, hres]
    rfl
  · rfl
  · rfl
  · simp
  · refine ⟨⟨prompt.id, (validatePromptPayload jl payload).2.title,
      (validatePromptPayload jl payload).2.content,
      (validatePromptPayload jl payload).2.is_template,
      (validatePromptPayload jl payload).2.configurable_options, db.nextSubtopicId⟩,
      ?_, hpid, rfl⟩
    show _ ∈ db.prompts.map _
    have := List.mem_map_of_mem
      (fun p : PromptRow => if (p.id == pid) = true then
        (⟨prompt.id, (validatePromptPayload jl payload).2.title,
          (validatePromptPayload jl payload).2.content,
          (validatePromptPayload jl payload).2.is_template,
          (validatePromptPayload jl payload).2.configurable_options,
          db.nextSubtopicId⟩ : PromptRow) else p)
      (List.mem_of_find?_eq_some hfind)
    simpa [hpidbeq] using this
  · intro p hp hpne
    have hp' : p ∈ db.prompts.map
        (fun p : PromptRow => if (p.id == pid) = true then
          (⟨prompt.id, (validatePromptPayload jl payload).2.title,
            (validatePromptPayload jl payload).2.content,
            (validatePromptPayload jl payload).2.is_template,
            (validatePromptPayload jl payload).2.configurable_options,
            db.nextSubtopicId⟩ : PromptRow) else p) := hp
    rw [List.mem_map] at hp'
    obtain ⟨q, hq, hqe⟩ := hp'
    by_cases hqid : (q.id == pid) = true
    · rw [if_pos hqid] at hqe
      subst hqe
      exact absurd hpid hpne
    · rw [if_neg hqid] at hqe
      subst hqe
      exact hq

/-- A one-domain / one-subtopic / one-prompt database for the C7 witness. -/
def exDB7 : DB :=
  ⟨[⟨1, "Old"⟩], [⟨1, "Sub", 1⟩], [⟨1, "T", "C", false, none, 1⟩], [], 2, 2, 2, 1⟩

/-- Witness for C7 at concrete inputs: moving the only prompt of
`Old/Sub` to the unseen pair `Research/Planning` appends exactly one
domain and one subtopic, re-parents the prompt, and keeps the now-empty
`Old` and `Sub` rows. -/
theorem update_reparents_without_pruning_witness :
    ∃ db', updatePrompt jsonLoadsStub genStub exDB7 1 okPayload [] = .success db' 1 [] ∧
      db'.domains = exDB7.domains ++
        [⟨exDB7.nextDomainId, (validatePromptPayload jsonLoadsStub okPayload).2.domain_name⟩] ∧
      db'.subtopics = exDB7.subtopics ++
        [⟨exDB7.nextSubtopicId, (validatePromptPayload jsonLoadsStub okPayload).2.subtopic_name,
          exDB7.nextDomainId⟩] ∧
      db'.images = exDB7.images ∧
      (∃ p' ∈ db'.prompts, p'.id = 1 ∧ p'.subtopic_id = exDB7.nextSubtopicId) ∧
      (∀ p ∈ db'.prompts, p.id ≠ 1 → p ∈ exDB7.prompts) :=
  update_reparents_without_pruning jsonLoadsStub genStub exDB7 1 okPayload
    ⟨1, "T", "C", false, none, 1⟩ (by decide) rfl rfl (by decide)

/-! ## Cascade helper lemmas -/

theorem exists_mem_of_isEmpty_false {α : Type} {l : List α} (h : l.isEmpty = false) :
    ∃ x, x ∈ l := by
  cases l with
  | nil => cases h
  | cons a t => exact ⟨a, List.mem_cons_self a t⟩

theorem deleteSubtopicCascade_domains (db : DB) (sid : Nat) :
    (deleteSubtopicCascade db sid).domains = db.domains := rfl

theorem deleteSubtopicCascade_subtopics (db : DB) (sid : Nat) :
    (deleteSubtopicCascade db sid).subtopics =
      db.subtopics.filter (fun t => !(t.id == sid)) := rfl

/-- When the subtopic has no prompts left, its delete-cascade removes no
prompt row. -/
theorem deleteSubtopicCascade_prompts_of_empty (db : DB) (sid : Nat)
    (h : db.prompts.filter (fun p => p.subtopic_id == sid) = []) :
    (deleteSubtopicCascade db sid).prompts = db.prompts := by
  show db.prompts.filter _ = db.prompts
  apply List.filter_eq_self.mpr
  intro q hq
  have := List.filter_eq_nil_iff.mp h q hq
  simpa using this

theorem deleteDomainCascade_domains (db : DB) (did : Nat) :
    (deleteDomainCascade db did).domains =
      db.domains.filter (fun d => !(d.id == did)) := rfl

/-- When the domain has no subtopics left, its delete-cascade removes no
subtopic row. -/
theorem deleteDomainCascade_subtopics_of_empty (db : DB) (did : Nat)
    (h : db.subtopics.filter (fun s => s.domain_id == did) = []) :
    (deleteDomainCascade db did).subtopics = db.subtopics := by
  show db.subtopics.filter _ = db.subtopics
  apply List.filter_eq_self.mpr
  intro q hq
  have := List.filter_eq_nil_iff.mp h q hq
  simpa using this

/-- When the domain has no subtopics left, its delete-cascade removes no
prompt row either. -/
theorem deleteDomainCascade_prompts_of_empty (db : DB) (did : Nat)
    (h : db.subtopics.filter (fun s => s.domain_id == did) = []) :
    (deleteDomainCascade db did).prompts = db.prompts := by
  show db.prompts.filter _ = db.prompts
  rw [h]
  apply List.filter_eq_self.mpr
  intro q _
  rfl

/-! ## C1: delete-prompt pruning -/

/-- Claim C1. After a successful `delete_prompt` on a well-formed state that
satisfies the pruning invariant, the invariant still holds — the parent
subtopic was deleted exactly when it lost its last prompt, and the parent
domain exactly when it then lost its last subtopic — so no empty subtopic
or domain survives the commit; moreover a domain is only ever pruned after
(and because) one of its subtopics was pruned in the same request, which is
the subtopic-before-domain ordering of the two checks. -/
theorem delete_prompt_prunes (db : DB) (pid : Nat) (db' : DB)
    (hwf : db.WF) (hne : NoEmpty db) (h : deletePrompt db pid = some db') :
    NoEmpty db' ∧
    (∀ d ∈ db.domains, d ∉ db'.domains →
      ∃ s ∈ db.subtopics, s.domain_id = d.id ∧ s ∉ db'.subtopics) := by
  simp only [deletePrompt] at h
  split at h
  · cases h
  · rename_i prompt hfind
    have hpid : prompt.id = pid := by simpa using List.find?_some hfind
    have hpmem := List.mem_of_find?_eq_some hfind
    have hsurvive : ∀ q ∈ db.prompts, q.subtopic_id ≠ prompt.subtopic_id →
        q ∈ db.prompts.filter (fun p => !(p.id == pid)) := by
      intro q hq hqs
      rw [List.mem_filter]
      refine ⟨hq, ?_⟩
      simp only [Bool.not_eq_true', beq_eq_false_iff_ne, ne_eq]
      intro hqid
      have hqp : q = prompt :=
        List.inj_on_of_nodup_map hwf.2.2.1 hq hpmem (by rw [hqid, hpid])
      exact hqs (by rw [hqp])
    split at h
    · -- the prompt's subtopic row is not stored: nothing is pruned
      rename_i hsubfind
      injection h with h'
      subst h'
      refine ⟨⟨?_, ?_⟩, ?_⟩
      · intro t ht
        obtain ⟨q, hq, hqs⟩ := hne.1 t ht
        refine ⟨q, hsurvive q hq ?_, hqs⟩
        intro hcontra
        have := List.find?_eq_none.mp hsubfind t ht
        simp only [beq_iff_eq] at this
        exact this (by rw [← hqs, hcontra])
      · intro e he
        exact hne.2 e he
      · intro d hd hnd
        exact absurd hd hnd
    · rename_i s hsubfind
      have hs_mem := List.mem_of_find?_eq_some hsubfind
      have hs_id : s.id = prompt.subtopic_id := by simpa using List.find?_some hsubfind
      -- any subtopic other than `s` keeps a surviving prompt
      have hother : ∀ t ∈ db.subtopics, t.id ≠ s.id →
          ∃ q ∈ db.prompts.filter (fun p => !(p.id == pid)), q.subtopic_id = t.id := by
        intro t ht htne
        obtain ⟨q, hq, hqs⟩ := hne.1 t ht
        refine ⟨q, hsurvive q hq ?_, hqs⟩
        intro hcontra
        exact htne (by rw [← hqs, hcontra, hs_id])
      split at h
      · rename_i hempty
        have hempty' : (db.prompts.filter (fun p => !(p.id == pid))).filter
            (fun p => p.subtopic_id == s.id) = [] := List.isEmpty_iff.mp hempty
        split at h
        · -- the subtopic is pruned; its domain row is not stored
          rename_i hdomfind
          injection h with h'
          subst h'
          refine ⟨⟨?_, ?_⟩, ?_⟩
          · intro t ht
            rw [deleteSubtopicCascade_subtopics, List.mem_filter] at ht
            obtain ⟨ht', htne⟩ := ht
            have htne' : t.id ≠ s.id := by simpa using htne
            obtain ⟨q, hq, hqs⟩ := hother t ht' htne'
            refine ⟨q, ?_, hqs⟩
            rw [show (deleteSubtopicCascade
              { db with
                  prompts := db.prompts.filter (fun p => !(p.id == pid)),
                  images := db.images.filter (fun i => !(i.prompt_id == pid)) }
              s.id).prompts = db.prompts.filter (fun p => !(p.id == pid)) from
              deleteSubtopicCascade_prompts_of_empty _ s.id hempty']
            exact hq
          · intro e he
            rw [deleteSubtopicCascade_domains] at he
            obtain ⟨u, hu, hud⟩ := hne.2 e he
            refine ⟨u, ?_, hud⟩
            rw [deleteSubtopicCascade_subtopics, List.mem_filter]
            refine ⟨hu, ?_⟩
            simp only [Bool.not_eq_true', beq_eq_false_iff_ne, ne_eq]
            intro huid
            have hus : u = s := List.inj_on_of_nodup_map hwf.2.1 hu hs_mem (by rw [huid])
            have := List.find?_eq_none.mp hdomfind e he
            simp only [beq_iff_eq] at this
            apply this
            rw [← hud, hus]
          · intro d hd hnd
            rw [deleteSubtopicCascade_domains] at hnd
            exact absurd hd hnd
        · rename_i d hdomfind
          have hd_mem := List.mem_of_find?_eq_some hdomfind
          have hd_id : d.id = s.domain_id := by simpa using List.find?_some hdomfind
          split at h
          · -- subtopic and domain both pruned
            rename_i hdempty
            injection h with h'
            subst h'
            have hsubnil : ((deleteSubtopicCascade
                { db with
                    prompts := db.prompts.filter (fun p => !(p.id == pid)),
                    images := db.images.filter (fun i => !(i.prompt_id == pid)) }
                s.id).subtopics.filter (fun t => t.domain_id == d.id)) = [] :=
              List.isEmpty_iff.mp hdempty
            refine ⟨⟨?_, ?_⟩, ?_⟩
            · intro t ht
              rw [deleteDomainCascade_subtopics_of_empty _ d.id hsubnil,
                deleteSubtopicCascade_subtopics, List.mem_filter] at ht
              obtain ⟨ht', htne⟩ := ht
              have htne' : t.id ≠ s.id := by simpa using htne
              obtain ⟨q, hq, hqs⟩ := hother t ht' htne'
              refine ⟨q, ?_, hqs⟩
              rw [deleteDomainCascade_prompts_of_empty _ d.id hsubnil,
                deleteSubtopicCascade_prompts_of_empty _ s.id hempty']
              exact hq
            · intro e he
              rw [deleteDomainCascade_domains, deleteSubtopicCascade_domains,
                List.mem_filter] at he
              obtain ⟨he', hene⟩ := he
              have hene' : e.id ≠ d.id := by simpa using hene
              obtain ⟨u, hu, hud⟩ := hne.2 e he'
              refine ⟨u, ?_, hud⟩
              rw [deleteDomainCascade_subtopics_of_empty _ d.id hsubnil,
                deleteSubtopicCascade_subtopics, List.mem_filter]
              refine ⟨hu, ?_⟩
              simp only [Bool.not_eq_true', beq_eq_false_iff_ne, ne_eq]
              intro huid
              have hus : u = s := List.inj_on_of_nodup_map hwf.2.1 hu hs_mem (by rw [huid])
              apply hene'
              rw [← hud, hus, ← hd_id]
            · intro dd hdd hnd
              rw [deleteDomainCascade_domains, deleteSubtopicCascade_domains] at hnd
              have hdd_id : dd.id = d.id := by
                by_contra hne_id
                apply hnd
                rw [List.mem_filter]
                refine ⟨hdd, ?_⟩
                simpa using hne_id
              have hdd_d : dd = d := List.inj_on_of_nodup_map hwf.1 hdd hd_mem hdd_id
              refine ⟨s, hs_mem, by rw [hdd_d, hd_id], ?_⟩
              rw [deleteDomainCascade_subtopics_of_empty _ d.id hsubnil,
                deleteSubtopicCascade_subtopics, List.mem_filter]
              intro hcontra
              simpa using hcontra.2
          · -- subtopic pruned, domain kept (it still has subtopics)
            rename_i hdnotempty
            injection h with h'
            subst h'
            have hdnotempty' := hdnotempty
            rw [Bool.not_eq_true] at hdnotempty'
            refine ⟨⟨?_, ?_⟩, ?_⟩
            · intro t ht
              rw [deleteSubtopicCascade_subtopics, List.mem_filter] at ht
              obtain ⟨ht', htne⟩ := ht
              have htne' : t.id ≠ s.id := by simpa using htne
              obtain ⟨q, hq, hqs⟩ := hother t ht' htne'
              refine ⟨q, ?_, hqs⟩
              rw [show (deleteSubtopicCascade
                { db with
                    prompts := db.prompts.filter (fun p => !(p.id == pid)),
                    images := db.images.filter (fun i => !(i.prompt_id == pid)) }
                s.id).prompts = db.prompts.filter (fun p => !(p.id == pid)) from
                deleteSubtopicCascade_prompts_of_empty _ s.id hempty']
              exact hq
            · intro e he
              rw [deleteSubtopicCascade_domains] at he
              by_cases heid : e.id = d.id
              · obtain ⟨u, hu⟩ := exists_mem_of_isEmpty_false hdnotempty'
                rw [List.mem_filter] at hu
                refine ⟨u, hu.1, ?_⟩
                have : u.domain_id = d.id := by simpa using hu.2
                rw [this, heid]
              · obtain ⟨u, hu, hud⟩ := hne.2 e he
                refine ⟨u, ?_, hud⟩
                rw [deleteSubtopicCascade_subtopics, List.mem_filter]
                refine ⟨hu, ?_⟩
                simp only [Bool.not_eq_true', beq_eq_false_iff_ne, ne_eq]
                intro huid
                have hus : u = s := List.inj_on_of_nodup_map hwf.2.1 hu hs_mem (by rw [huid])
                apply heid
                rw [← hud, hus, ← hd_id]
            · intro dd hdd hnd
              rw [deleteSubtopicCascade_domains] at hnd
              exact absurd hdd hnd
      · -- the subtopic keeps other prompts: nothing is pruned
        rename_i hnotempty
        injection h with h'
        subst h'
        have hnotempty' := hnotempty
        rw [Bool.not_eq_true] at hnotempty'
        refine ⟨⟨?_, ?_⟩, ?_⟩
        · intro t ht
          by_cases htid : t.id = s.id
          · obtain ⟨q, hq⟩ := exists_mem_of_isEmpty_false hnotempty'
            rw [List.mem_filter] at hq
            refine ⟨q, hq.1, ?_⟩
            have : q.subtopic_id = s.id := by simpa using hq.2
            rw [this, htid]
          · obtain ⟨q, hq, hqs⟩ := hother t ht htid
            exact ⟨q, hq, hqs⟩
        · intro e he
          obtain ⟨u, hu, hud⟩ := hne.2 e he
          exact ⟨u, hu, hud⟩
        · intro dd hdd hnd
          exact absurd hdd hnd

/-- A one-domain / one-subtopic / one-prompt database for the C1 witness. -/
def exDB1 : DB :=
  ⟨[⟨1, "D"⟩], [⟨1, "S", 1⟩], [⟨1, "T", "C", false, none, 1⟩], [], 2, 2, 2, 1⟩

/-- The state after deleting prompt 1 from `exDB1`. -/
def exDB1' : DB :=
  match deletePrompt exDB1 1 with
  | some d => d
  | none => exDB1

/-- Witness for C1 at concrete inputs: deleting the only prompt prunes its
subtopic and then its domain, and the resulting state satisfies the
invariant. -/
theorem delete_prompt_prunes_witness :
    NoEmpty exDB1' ∧
    (∀ d ∈ exDB1.domains, d ∉ exDB1'.domains →
      ∃ s ∈ exDB1.subtopics, s.domain_id = d.id ∧ s ∉ exDB1'.subtopics) :=
  delete_prompt_prunes exDB1 1 exDB1' (by decide) (by decide) rfl

/-! ## Correctness of the `LIKE` matcher on wildcard-free needles -/

theorem likeAux_percent_nil : ∀ (f : Nat) (s : List Char), s.length + 2 ≤ f →
    likeAux f ['%'] s = true := by
  intro f s
  induction s generalizing f with
  | nil =>
    intro hf
    cases f with
    | zero => omega
    | succ f' =>
      cases f' with
      | zero => omega
      | succ f'' => rfl
  | cons c s' ih =>
    intro hf
    cases f with
    | zero => omega
    | succ f' =>
      have h2 : likeAux f' ['%'] s' = true := ih f' (by simp at hf ⊢; omega)
      simp [likeAux, h2]

theorem likeAux_literal (kw : List Char) (hw : ∀ c ∈ kw, c ≠ '%' ∧ c ≠ '_') :
    ∀ (s : List Char) (f : Nat), kw.length + s.length + 2 ≤ f →
      (likeAux f (kw ++ ['%']) s = true ↔ kw <+: s) := by
  induction kw with
  | nil =>
    intro s f hf
    simp only [List.nil_append]
    rw [likeAux_percent_nil f s (by omega)]
    simp [ List.nil_prefix]
  | cons c kw' ih =>
    intro s f hf
    obtain ⟨hc1, hc2⟩ := hw c (List.mem_cons_self c kw')
    have hw' : ∀ x ∈ kw', x ≠ '%' ∧ x ≠ '_' := fun x hx => hw x (List.mem_cons_of_mem c hx)
    cases f with
    | zero => simp at hf
    | succ f' =>
      cases s with
      | nil =>
        simp only [List.cons_append]
        rw [show likeAux (f' + 1) (c :: (kw' ++ ['%'])) [] = false from by simp [likeAux, hc1]]
        simp
      | cons d s' =>
        simp only [List.cons_append]
        have hstep : likeAux (f' + 1) (c :: (kw' ++ ['%'])) (d :: s') =
            ((decide (c = '_') || decide (c = d)) && likeAux f' (kw' ++ ['%']) s') := by
          simp [likeAux, hc1]
        rw [hstep, List.cons_prefix_cons,
          ← ih hw' s' f' (by simp only [List.length_cons] at hf ⊢; omega)]
        simp [hc2]

theorem likeAux_contains (kw : List Char) (hw : ∀ c ∈ kw, c ≠ '%' ∧ c ≠ '_') :
    ∀ (s : List Char) (f : Nat), kw.length + s.length + 3 ≤ f →
      (likeAux f ('%' :: (kw ++ ['%'])) s = true ↔ kw <:+: s) := by
  intro s
  induction s with
  | nil =>
    intro f hf
    cases f with
    | zero => omega
    | succ f' =>
      have hstep : likeAux (f' + 1) ('%' :: (kw ++ ['%'])) [] =
          likeAux f' (kw ++ ['%']) [] := by
        simp [likeAux]
      rw [hstep, likeAux_literal kw hw [] f' (by simp at hf ⊢; omega)]
      simp [ List.prefix_nil, List.infix_nil]
  | cons c s' ih =>
    intro f hf
    cases f with
    | zero => omega
    | succ f' =>
      have hstep : likeAux (f' + 1) ('%' :: (kw ++ ['%'])) (c :: s') =
          (likeAux f' (kw ++ ['%']) (c :: s') || likeAux f' ('%' :: (kw ++ ['%'])) s') := by
        simp [likeAux]
      rw [hstep, List.infix_cons_iff, Bool.or_eq_true,
        likeAux_literal kw hw (c :: s') f' (by simp only [List.length_cons] at hf ⊢; omega),
        ih f' (by simp only [List.length_cons] at hf ⊢; omega)]

/-- Pattern `LIKE '%kw%'` is substring containment when `kw` holds no wildcard. -/
theorem likeMatch_contains (kw s : List Char) (hw : ∀ c ∈ kw, c ≠ '%' ∧ c ≠ '_') :
    (likeMatch ('%' :: (kw ++ ['%'])) s = true ↔ kw <:+: s) := by
  unfold likeMatch
  exact likeAux_contains kw hw s _
    (by simp only [List.length_cons, List.length_append]; omega)

/-! ## Sortedness of the title ordering -/

theorem mem_insertByTitle (x p : PromptRow) :
    ∀ l, x ∈ insertByTitle p l ↔ x = p ∨ x ∈ l := by
  intro l
  induction l with
  | nil => simp [insertByTitle]
  | cons q qs ih =>
    by_cases h : p.title ≤ q.title
    · rw [insertByTitle, if_pos h]
      simp [List.mem_cons]
    · rw [insertByTitle, if_neg h]
      simp only [List.mem_cons, ih]
      tauto

theorem insertByTitle_sorted (p : PromptRow) :
    ∀ l, l.Pairwise (fun a b : PromptRow => a.title ≤ b.title) →
      (insertByTitle p l).Pairwise (fun a b : PromptRow => a.title ≤ b.title) := by
  intro l
  induction l with
  | nil =>
    intro _
    simp [insertByTitle]
  | cons q qs ih =>
    intro h
    rw [List.pairwise_cons] at h
    obtain ⟨hq, hqs⟩ := h
    by_cases hle : p.title ≤ q.title
    · rw [insertByTitle, if_pos hle, List.pairwise_cons]
      refine ⟨?_, List.pairwise_cons.mpr ⟨hq, hqs⟩⟩
      intro b hb
      rcases List.mem_cons.mp hb with rfl | hb'
      · exact hle
      · exact le_trans hle (hq b hb')
    · rw [insertByTitle, if_neg hle, List.pairwise_cons]
      refine ⟨?_, ih hqs⟩
      intro b hb
      rcases (mem_insertByTitle b p qs).mp hb with rfl | hb'
      · exact le_of_not_le hle
      · exact hq b hb'

theorem sortByTitle_sorted :
    ∀ l, (sortByTitle l).Pairwise (fun a b : PromptRow => a.title ≤ b.title) := by
  intro l
  induction l with
  | nil => simp [sortByTitle]
  | cons p ps ih => exact insertByTitle_sorted p (sortByTitle ps) ih

/-! ## C6: search semantics -/

/-- A database with one prompt titled `abc` (content `xyz`) for the C6
counterexample. -/
def exDB6 : DB :=
  ⟨[⟨1, "D"⟩], [⟨1, "S", 1⟩], [⟨1, "abc", "xyz", false, none, 1⟩], [], 2, 2, 2, 1⟩

/-- Claim C6, counterexample. The claim reads the query as a literal
substring, but the code interpolates it unescaped into a `LIKE` pattern,
where `_` matches any single character: searching `a_c` returns the prompt
titled `abc` although neither its title nor its content contains the
substring `a_c`, so the implementation differs from the claimed substring
semantics at this input. -/
theorem search_substring_counterexample :
    (searchPrompts exDB6 (some "a_c")).map (fun p => p.id) = [1] ∧
    (searchSpecSubstring exDB6 (some "a_c")).map (fun p => p.id) = [] ∧
    searchPrompts exDB6 (some "a_c") ≠ searchSpecSubstring exDB6 (some "a_c") := by
  refine ⟨rfl, rfl, ?_⟩
  intro hcontra
  have h1 : (searchPrompts exDB6 (some "a_c")).map (fun p => p.id) = [1] := rfl
  have h2 : (searchSpecSubstring exDB6 (some "a_c")).map (fun p => p.id) = [] := rfl
  rw [hcontra, h2] at h1
  cases h1

/-- Claim C6, amended. For every search request: a missing, empty or blank
`q` yields the empty list; when the trimmed lower-cased query contains no
SQL `LIKE` wildcard (`%` or `_`), the result is exactly the prompts whose
lower-cased title or content contains the query as a substring, ordered by
title ascending (when `q` does contain `%`/`_`, those characters act as
`LIKE` wildcards instead, as the counterexample shows); and every result
list is sorted by title. -/
theorem search_semantics :
    (∀ db q, pyStrip (q.getD "") = "" → searchPrompts db q = []) ∧
    (∀ db q, (∀ c ∈ (pyLower (pyStrip (q.getD ""))).data, c ≠ '%' ∧ c ≠ '_') →
      searchPrompts db q = searchSpecSubstring db q) ∧
    (∀ db q, (searchPrompts db q).Pairwise
      (fun a b : PromptRow => a.title ≤ b.title)) := by
  refine ⟨?_, ?_, ?_⟩
  · intro db q h
    rw [searchPrompts, if_pos h]
  · intro db q hnowild
    by_cases hkw : pyStrip (q.getD "") = ""
    · rw [searchPrompts, searchSpecSubstring, if_pos hkw, if_pos hkw]
    · rw [searchPrompts, searchSpecSubstring, if_neg hkw, if_neg hkw]
      dsimp only
      congr 1
      apply List.filter_congr
      intro p _
      rw [Bool.eq_iff_iff, Bool.or_eq_true, Bool.or_eq_true,
        likeMatch_contains _ _ hnowild, likeMatch_contains _ _ hnowild]
      simp
  · intro db q
    rw [searchPrompts]
    split
    · simp
    · exact sortByTitle_sorted _

/-- Witness for the amended C6 at concrete inputs: a missing `q` yields the
empty list, and the wildcard-free query `"y"` agrees with the substring
semantics on `exDB6` (matching prompt 1 by content). -/
theorem search_semantics_witness :
    searchPrompts exDB6 none = [] ∧
    searchPrompts exDB6 (some "y") = searchSpecSubstring exDB6 (some "y") ∧
    (searchPrompts exDB6 (some "y")).map (fun p => p.id) = [1] := by
  refine ⟨search_semantics.1 exDB6 none rfl,
    search_semantics.2.1 exDB6 (some "y") (by decide), rfl⟩
